import Mathlib

/-!
# Tunnel flow control, control dispatch and the UDP reply path

A shallow embedding of `pkg/connpool/stream.go` (the `tunnel` type: `Receive`,
`Send`, `sync`, `CloseSend`, `handleControl`) and of `pkg/tun/udp/handler.go`
(`handler.HandleMessage`).

Conventions of the embedding:

* `uint32` and `uint16` values are natural numbers, reduced explicitly modulo
  `2^32` and `2^16` wherever the Go code computes in that type.
* The bidirectional stream is a record holding the results of the upcoming
  `Recv` calls, the results of the upcoming `Send` calls, and the frames that
  were written so far.
* A `context.Context` is the sequence of answers that successive `ctx.Err()`
  calls of one operation obtain.
* The value of `lastAck` is written by other goroutines while `sync` polls it;
  the poll loop is therefore given the sequence of values its successive
  atomic loads observe.
* A loop that may spin forever (`sync`) takes a bound on its iterations and
  yields `none` when it is still spinning after that many polls.
-/

/-! # Definitions -/

namespace connpool

/-- Go `error` values; `Option Error` plays the role of a possibly-nil error. -/
abbrev Error := String

/-- Largest `uint32`, Go's `math.MaxUint32`. -/
def MaxUint32 : Nat := 4294967295

/-- Modelled from the spec: the `ConnID` type is not part of the sources at hand.
The spec describes it as a comparable value encoding the transport protocol,
the source address and port and the destination address and port. -/
structure ConnID where
  protocol : Nat
  source : List Nat
  sourcePort : Nat
  destination : List Nat
  destinationPort : Nat
deriving DecidableEq, Repr

/-- Modelled from the spec: accessor `id.Source()` of the source address. -/
def ConnID.Source (id : ConnID) : List Nat := id.source

/-- Modelled from the spec: accessor `id.Destination()` of the destination address. -/
def ConnID.Destination (id : ConnID) : List Nat := id.destination

/-- Modelled from the spec: accessor `id.SourcePort()`; ports are `uint16`. -/
def ConnID.SourcePort (id : ConnID) : Nat := id.sourcePort % 65536

/-- Modelled from the spec: accessor `id.DestinationPort()`; ports are `uint16`. -/
def ConnID.DestinationPort (id : ConnID) : Nat := id.destinationPort % 65536

/-- Modelled from the spec: the control codes are declared outside the sources at
hand. The spec lists `Connect`, `ConnectOK`, `Disconnect`, `DisconnectOK`,
`SyncRequest`, `SyncResponse` and asks for the set to be extensible, which
`other` stands for. -/
inductive ControlCode where
  | Connect
  | ConnectOK
  | Disconnect
  | DisconnectOK
  | SyncRequest
  | SyncResponse
  | other (n : Nat)
deriving DecidableEq, Repr

/-- Modelled from the spec: a `Control` is a message that additionally carries a
code and, for the two sync codes, an acknowledgement number. -/
structure Control where
  id : ConnID
  code : ControlCode
  ackNumber : Nat
deriving DecidableEq, Repr

/-- Modelled from the spec: accessor `ctrl.ID()`. -/
def Control.ID (c : Control) : ConnID := c.id

/-- Modelled from the spec: accessor `ctrl.Code()`. -/
def Control.Code (c : Control) : ControlCode := c.code

/-- Modelled from the spec: accessor `ctrl.AckNumber()`; the result type is `uint32`. -/
def Control.AckNumber (c : Control) : Nat := c.ackNumber % 2 ^ 32

/-- Modelled from the spec: a `Message` is a connection id with a payload, and a
`Control` is a variant of it. -/
inductive Message where
  | data (id : ConnID) (payload : List Nat)
  | control (ctrl : Control)
deriving DecidableEq, Repr

/-- Modelled from the spec: constructor `NewMessage(id, payload)` of a data message. -/
def NewMessage (id : ConnID) (payload : List Nat) : Message := Message.data id payload

/-- Modelled from the spec: accessor `msg.ID()`. -/
def Message.ID : Message → ConnID
  | Message.data id _ => id
  | Message.control c => c.ID

/-- Modelled from the spec: accessor `msg.Payload()`; the payload of a control plays no
part in what follows and is left empty. -/
def Message.Payload : Message → List Nat
  | Message.data _ p => p
  | Message.control _ => []

/-- The Go type assertion `msg.(Control)`. -/
def Message.asControl : Message → Option Control
  | Message.data _ _ => none
  | Message.control c => some c

/-- Modelled from the spec: the wire codec (`rpc.ConnMessage`, `TunnelMessage`,
`FromConnMessage`) is not part of the sources at hand. A frame is represented
by the message it encodes. -/
abbrev ConnMessage := Message

/-- Modelled from the spec: encoding `m.TunnelMessage()` of a message as a frame. -/
def Message.TunnelMessage (m : Message) : ConnMessage := m

/-- Modelled from the spec: decoding `FromConnMessage(cm)` of a frame. -/
def FromConnMessage (cm : ConnMessage) : Message := cm

/-- Modelled from the spec: the connection id of the sync requests the tunnel builds
itself, which belong to no connection. -/
def syncID : ConnID := ⟨0, [], 0, [], 0⟩

/-- Modelled from the spec: `SyncRequestControl(ackNbr)` is absent from the sources
at hand; the spec has it build a `SyncRequest` control carrying the given
`uint32` ack number. -/
def SyncRequestControl (ackNbr : Nat) : Control :=
  { id := syncID, code := ControlCode.SyncRequest, ackNumber := ackNbr % 2 ^ 32 }

/-- Modelled from the spec: `SyncResponseControl(request)` is absent from the
sources at hand; the spec has it build a `SyncResponse` echoing the ack number
of the request. -/
def SyncResponseControl (request : Control) : Control :=
  { id := request.ID, code := ControlCode.SyncResponse, ackNumber := request.AckNumber }

/-- The `BidiStream` interface together with the optional `CloseSend` method that
`tunnel.CloseSend` probes for.

* `recvQueue`: what the upcoming `Recv()` calls return, in order; when it is
  exhausted `Recv()` blocks.
* `sendResults`: what the upcoming `Send()` calls return, in order; when it is
  exhausted every further `Send()` succeeds.
* `sent`: the frames written by the successful `Send()` calls, oldest first.
* `halfClose`: `none` when the stream has no `CloseSend` method, `some r` when it
  has one that returns `r`.
* `closeSendCalls`: how often that method was invoked. -/
structure BidiStream where
  recvQueue : List (Except Error ConnMessage)
  sendResults : List (Option Error)
  sent : List ConnMessage
  halfClose : Option (Option Error)
  closeSendCalls : Nat

/-- The call `stream.Send(frame)`. -/
def BidiStream.Send (st : BidiStream) (cm : ConnMessage) : BidiStream × Option Error :=
  match st.sendResults with
  | [] => ({ st with sent := st.sent ++ [cm] }, none)
  | none :: rs => ({ st with sendResults := rs, sent := st.sent ++ [cm] }, none)
  | some err :: rs => ({ st with sendResults := rs }, some err)

/-- The call `stream.Recv()`; `none` when no frame will ever arrive (the call blocks). -/
def BidiStream.Recv (st : BidiStream) : Option (BidiStream × Except Error ConnMessage) :=
  match st.recvQueue with
  | [] => none
  | r :: q => some ({ st with recvQueue := q }, r)

/-- A context: `ctx n` is what the `n`-th call of `ctx.Err()` made by an operation
returns (`none` is Go's `nil`). -/
abbrev Context := Nat → Option Error

/-- A context that is never cancelled. -/
def Context.background : Context := fun _ => none

/-- The `tunnel` struct. `NewTunnel` is its only constructor and sets `syncRatio` to
eight; Go panics on `%` and `/` by a zero ratio, so statements about an arbitrary
tunnel that reaches those operations take a positive ratio. -/
structure tunnel where
  stream : BidiStream
  counter : Nat
  lastAck : Nat
  syncRatio : Nat
  ackWindow : Nat

/-- The constructor `NewTunnel(stream)`. -/
def NewTunnel (stream : BidiStream) : tunnel :=
  { stream := stream, counter := 0, lastAck := 0, syncRatio := 8, ackWindow := 1 }

/-- What a `Receive` call yields: a message, an error, or a call that stays blocked
in `Recv()` because the peer sends nothing more. -/
inductive ReceiveResult where
  | ok (msg : Message)
  | err (e : Error)
  | blocked
deriving DecidableEq, Repr

/-- The loop of `tunnel.Receive`. `i` counts the `ctx.Err()` calls made so far and
the first argument bounds the number of iterations (`none` when exceeded). -/
def tunnel.ReceiveLoop (ctx : Context) : Nat → Nat → tunnel → Option (tunnel × ReceiveResult)
  | 0, _, _ => none
  | fuel + 1, i, s =>
    match ctx i with
    | some e => some (s, ReceiveResult.err e)
    | none =>
      match s.stream.Recv with
      | none => some (s, ReceiveResult.blocked)
      | some (st, Except.error e) => some ({ s with stream := st }, ReceiveResult.err e)
      | some (st, Except.ok cm) =>
        let msg := FromConnMessage cm
        match msg.asControl with
        | some ctrl =>
          match ctrl.Code with
          | ControlCode.SyncRequest =>
            match st.Send (SyncResponseControl ctrl |> Message.control).TunnelMessage with
            | (st2, some e) =>
              some ({ s with stream := st2 }, ReceiveResult.err ("failed to send sync response: " ++ e))
            | (st2, none) => tunnel.ReceiveLoop ctx fuel (i + 1) { s with stream := st2 }
          | ControlCode.SyncResponse =>
            tunnel.ReceiveLoop ctx fuel (i + 1) { s with stream := st, lastAck := ctrl.AckNumber }
          | _ => some ({ s with stream := st }, ReceiveResult.ok msg)
        | none => some ({ s with stream := st }, ReceiveResult.ok msg)

/-- The method `tunnel.Receive(ctx)`. Every iteration that does not return takes a
frame off the stream, so one more iteration than there are frames suffices. -/
def tunnel.Receive (ctx : Context) (s : tunnel) : Option (tunnel × ReceiveResult) :=
  tunnel.ReceiveLoop ctx (s.stream.recvQueue.length + 1) 0 s

/-- The comparison `ackSent <= lastAck+s.ackWindow` of the poll loop, in `uint32`
arithmetic. -/
def ackReached (ackSent lastAck ackWindow : Nat) : Bool :=
  decide (ackSent ≤ (lastAck + ackWindow) % 2 ^ 32)

/-- The poll loop of `tunnel.sync`. `loads n` is the value the `n`-th
`atomic.LoadUint32(&s.lastAck)` observes, `ctx n` the answer of the `n`-th
`ctx.Err()`; the first argument bounds the number of polls (`none`: still
waiting after that many). -/
def tunnel.syncWait (ackSent : Nat) (ctx : Context) (loads : Nat → Nat) :
    Nat → Nat → tunnel → Option tunnel
  | 0, _, _ => none
  | fuel + 1, n, s =>
    match ctx n with
    | some _ => some s
    | none =>
      let lastAck := loads n % 2 ^ 32
      let s1 := { s with lastAck := lastAck }
      if ackReached ackSent lastAck s1.ackWindow then some s1
      else tunnel.syncWait ackSent ctx loads fuel (n + 1) s1

/-- The method `tunnel.sync(ctx)`. -/
def tunnel.sync (fuel : Nat) (ctx : Context) (loads : Nat → Nat) (s : tunnel) :
    Option (tunnel × Option Error) :=
  let ackSent := s.counter / s.syncRatio
  match s.stream.Send (SyncRequestControl ackSent |> Message.control).TunnelMessage with
  | (st, some e) => some ({ s with stream := st }, some e)
  | (st, none) =>
    (tunnel.syncWait ackSent ctx loads fuel 0 { s with stream := st }).map (fun s1 => (s1, none))

/-- The method `tunnel.Send(ctx, m)`. -/
def tunnel.Send (fuel : Nat) (ctx : Context) (loads : Nat → Nat) (s : tunnel) (m : Message) :
    Option (tunnel × Option Error) :=
  match s.stream.Send m.TunnelMessage with
  | (st, some e) => some ({ s with stream := st }, some e)
  | (st, none) =>
    let s1 := { s with stream := st }
    match m.asControl with
    | some _ => some (s1, none)
    | none =>
      let s2 := { s1 with counter := (s1.counter + 1) % 2 ^ 32 }
      if s2.counter % s2.syncRatio = 0 then tunnel.sync fuel ctx loads s2
      else some (s2, none)

/-- The method `tunnel.CloseSend()`. -/
def tunnel.CloseSend (s : tunnel) : tunnel × Option Error :=
  match s.stream.halfClose with
  | some r =>
    ({ s with lastAck := MaxUint32,
              stream := { s.stream with closeSendCalls := s.stream.closeSendCalls + 1 } }, r)
  | none => (s, some "tunnel does not implement CloseSend()")

/-- Whether a frame decodes to a `SyncRequest` or `SyncResponse` control. -/
def isSync (cm : ConnMessage) : Bool :=
  match (FromConnMessage cm).asControl with
  | some c => decide (c.Code = ControlCode.SyncRequest) || decide (c.Code = ControlCode.SyncResponse)
  | none => false

/-- The `SyncRequest` controls among a list of frames, in order. -/
def syncRequests (frames : List ConnMessage) : List Control :=
  frames.filterMap (fun cm =>
    match (FromConnMessage cm).asControl with
    | some c => if c.Code = ControlCode.SyncRequest then some c else none
    | none => none)

/-- The ack numbers of the `SyncResponse` controls among a list of frames, in order. -/
def syncResponseAcks (frames : List ConnMessage) : List Nat :=
  frames.filterMap (fun cm =>
    match (FromConnMessage cm).asControl with
    | some c => if c.Code = ControlCode.SyncResponse then some c.AckNumber else none
    | none => none)

/-- A tunnel whose stream holds a sync request, a sync response and two data frames. -/
def exampleReceiveTunnel : tunnel :=
  NewTunnel
    { recvQueue := [Except.ok (Message.control ⟨syncID, ControlCode.SyncRequest, 3⟩),
                    Except.ok (Message.control ⟨syncID, ControlCode.SyncResponse, 7⟩),
                    Except.ok (Message.data syncID [1, 2]),
                    Except.ok (Message.data syncID [9])],
      sendResults := [], sent := [], halfClose := none, closeSendCalls := 0 }

/-- The state of `exampleReceiveTunnel` after one `Receive`. -/
def exampleReceiveTunnelAfter : tunnel :=
  { stream :=
      { recvQueue := [Except.ok (Message.data syncID [9])],
        sendResults := [],
        sent := [Message.control ⟨syncID, ControlCode.SyncResponse, 3⟩],
        halfClose := none, closeSendCalls := 0 },
    counter := 0, lastAck := 7, syncRatio := 8, ackWindow := 1 }

/-- A stream without frames whose `CloseSend` method, when it has one, succeeds. -/
def idleStream (halfClose : Option (Option Error)) : BidiStream :=
  { recvQueue := [], sendResults := [], sent := [], halfClose := halfClose, closeSendCalls := 0 }

/-- A context that was cancelled before the operation started. -/
def Context.cancelled : Context := fun _ => some "context canceled"

/-- A tunnel on a half-closable stream that has sent eight data messages, so that
the ack number of the handshake in progress is one. -/
def eightSentTunnel : tunnel := { NewTunnel (idleStream (some none)) with counter := 8 }

/-- A tunnel that has sent seven data messages: the next one starts a handshake. -/
def sevenSentTunnel : tunnel := { NewTunnel (idleStream (some none)) with counter := 7 }

/-- A tunnel that has sent fifteen data messages and has seen no ack: the next data
message starts a handshake with ack number two, whose wait condition is false. -/
def fifteenSentTunnel : tunnel := { NewTunnel (idleStream none) with counter := 15 }

/-- The stream after `fifteenSentTunnel` has written its sixteenth data frame. -/
def sixteenthDataWritten : BidiStream :=
  (fifteenSentTunnel.stream.Send (NewMessage syncID []).TunnelMessage).1

/-- The stream after the sync request that follows the sixteenth data frame. -/
def secondSyncRequestWritten : BidiStream :=
  (sixteenthDataWritten.Send (Message.control (SyncRequestControl 2)).TunnelMessage).1

/-- One call `Send(ctx, msg)` together with what it meets while it runs: the answers
of its context, the values its loads of `lastAck` observe, and how many polls it
is given. -/
structure SendCall where
  fuel : Nat
  ctx : Context
  loads : Nat → Nat
  msg : Message

/-- A sequence of `Send` calls on one tunnel, each of which returns nil; `none` when
one of them returns an error or is still waiting at its bound. -/
def runSends : tunnel → List SendCall → Option tunnel
  | s, [] => some s
  | s, c :: cs =>
    match s.Send c.fuel c.ctx c.loads c.msg with
    | some (s1, none) => runSends s1 cs
    | _ => none

/-- The frames that data messages and the sync requests between them make up, when
`sentBefore` data messages preceded them: a sync request follows every message that
brings the count to a multiple of eight and carries an eighth of the count, reduced
as the `uint32` counter reduces it. -/
def framesFrom : Nat → List Message → List ConnMessage
  | _, [] => []
  | sentBefore, m :: ms =>
    if (sentBefore + 1) % 8 = 0 then
      m.TunnelMessage ::
        (Message.control (SyncRequestControl ((sentBefore + 1) / 8 % 2 ^ 29))).TunnelMessage ::
        framesFrom (sentBefore + 1) ms
    else m.TunnelMessage :: framesFrom (sentBefore + 1) ms

/-- Whether a frame decodes to a `SyncRequest` control. -/
def isSyncRequest (cm : ConnMessage) : Bool :=
  match (FromConnMessage cm).asControl with
  | some c => decide (c.Code = ControlCode.SyncRequest)
  | none => false

/-- One data `Send` whose wait is satisfied at its first poll. -/
def readyCall : SendCall :=
  { fuel := 1, ctx := Context.background, loads := fun _ => 4294967294,
    msg := NewMessage syncID [] }

/-- As many data `Send` calls as the `uint32` counter has values. -/
def wrapCalls : List SendCall := List.replicate 4294967296 readyCall

/-- Nine data `Send` calls whose waits are satisfied at the first poll. -/
def nineCalls : List SendCall := List.replicate 9 readyCall

/-- The frames written by `nineCalls`: eight data frames, the first sync request, and
the ninth data frame. -/
def nineCallsWritten : List ConnMessage :=
  List.replicate 8 (NewMessage syncID []) ++
    [Message.control (SyncRequestControl 1), NewMessage syncID []]

/-- The tunnel after `nineCalls` on a fresh tunnel. -/
def nineCallsAfter : tunnel :=
  { stream := { idleStream none with sent := nineCallsWritten },
    counter := 9, lastAck := 4294967294, syncRatio := 8, ackWindow := 1 }

/-- The frames among the results of the upcoming `Recv()` calls. -/
def okFrames (q : List (Except Error ConnMessage)) : List ConnMessage :=
  q.filterMap (fun r =>
    match r with
    | Except.ok cm => some cm
    | Except.error _ => none)

/-- The ack numbers of the sync responses waiting in the incoming stream, in order. -/
def pendingAcks (q : List (Except Error ConnMessage)) : List Nat :=
  syncResponseAcks (okFrames q)

/-- The two operations that write `lastAck`. -/
inductive TunnelOp where
  | Receive (ctx : Context)
  | CloseSend

/-- The tunnel after one operation. -/
def tunnel.step (s : tunnel) : TunnelOp → Option tunnel
  | TunnelOp.Receive ctx => (s.Receive ctx).map Prod.fst
  | TunnelOp.CloseSend => some s.CloseSend.1

/-- A fresh tunnel whose peer acknowledges five and then three. -/
def decreasingAckTunnel : tunnel :=
  NewTunnel
    { recvQueue := [Except.ok (Message.control ⟨syncID, ControlCode.SyncResponse, 5⟩),
                    Except.ok (Message.data syncID []),
                    Except.ok (Message.control ⟨syncID, ControlCode.SyncResponse, 3⟩),
                    Except.ok (Message.data syncID [])],
      sendResults := [], sent := [], halfClose := none, closeSendCalls := 0 }

/-- Modelled from the spec: the `Pool` type is not part of the sources at hand. The
spec describes it as a registry from connection id to handler with a non-creating
`Get` and a `GetOrCreate` that returns the handler present or inserts the one its
factory constructs, inserting nothing when the factory fails. -/
structure Pool (H : Type) where
  entries : List (ConnID × H)

/-- Modelled from the spec: the non-creating lookup `pool.Get(id)`. -/
def Pool.Get {H : Type} (pool : Pool H) (id : ConnID) : Option H :=
  (pool.entries.find? (fun e => decide (e.1 = id))).map Prod.snd

/-- Modelled from the spec: the creating lookup `pool.GetOrCreate(ctx, id, factory)`;
the boolean tells whether the handler was created by this call. -/
def Pool.GetOrCreate {H : Type} (pool : Pool H) (id : ConnID)
    (factory : Unit → Except Error H) : Pool H × Except Error (H × Bool) :=
  match pool.Get id with
  | some conn => (pool, Except.ok (conn, false))
  | none =>
    match factory () with
    | Except.ok conn => ({ entries := pool.entries ++ [(id, conn)] }, Except.ok (conn, true))
    | Except.error e => (pool, Except.error e)

/-- What `handleControl` does to its surroundings, in the order it does it. -/
inductive Effect (H : Type) where
  | debugf (id : ConnID) (code : ControlCode)
  | poolGet (id : ConnID)
  | poolGetOrCreate (id : ConnID)
  | handleMessage (conn : H) (msg : Message)
  | logError (text : String)

/-- The method `tunnel.handleControl(ctx, ctrl, pool)`. `NewDialer id s` is the handler
the factory passed to `GetOrCreate` constructs. The result is the pool afterwards
and the effects in order. -/
def tunnel.handleControl {H : Type} (NewDialer : ConnID → tunnel → H) (s : tunnel)
    (ctrl : Control) (pool : Pool H) : Pool H × List (Effect H) :=
  let id := ctrl.ID
  let code := ctrl.Code
  let log := [Effect.debugf id code]
  if code ≠ ControlCode.Connect then
    match pool.Get id with
    | some conn =>
      (pool, log ++ [Effect.poolGet id, Effect.handleMessage conn (Message.control ctrl)])
    | none =>
      if code ≠ ControlCode.Disconnect ∧ code ≠ ControlCode.DisconnectOK then
        (pool, log ++ [Effect.poolGet id,
          Effect.logError "control packet lost because no connection was active"])
      else (pool, log ++ [Effect.poolGet id])
  else
    match pool.GetOrCreate id (fun _ => Except.ok (NewDialer id s)) with
    | (pool1, Except.error e) => (pool1, log ++ [Effect.poolGetOrCreate id, Effect.logError e])
    | (pool1, Except.ok (conn, _)) =>
      (pool1, log ++ [Effect.poolGetOrCreate id,
        Effect.handleMessage conn (Message.control ctrl)])

/-- The calls on the pool among the effects, in order: the connection id looked up
and whether the lookup is the creating one. -/
def poolCalls {H : Type} (effects : List (Effect H)) : List (Bool × ConnID) :=
  effects.filterMap (fun e =>
    match e with
    | Effect.poolGet id => some (false, id)
    | Effect.poolGetOrCreate id => some (true, id)
    | _ => none)

end connpool

namespace udp

open connpool

/-- Modelled from the spec: the IP header view of a packet (package `ip`, not part of
the sources at hand), with the fields the reply path touches. -/
structure IPHeader where
  source : List Nat
  destination : List Nat
  checksum : Nat
deriving DecidableEq, Repr

/-- Modelled from the spec: the UDP header view over the payload of the IP packet
(not part of the sources at hand): ports, payload length and checksum, each a
`uint16`, followed by the payload bytes. -/
structure Header where
  sourcePort : Nat
  destinationPort : Nat
  payloadLen : Nat
  checksum : Nat
  payload : List Nat
deriving DecidableEq, Repr

/-- Modelled from the spec: a datagram is an IP packet of a given size whose payload
is viewed as a UDP header with its payload. -/
structure Datagram where
  size : Nat
  ipHdr : IPHeader
  udpHdr : Header
deriving DecidableEq, Repr

/-- The parameters the reply path takes from the packet library, which is not part of
the sources at hand: the length of the UDP header and the two checksum computations,
the second over the IP pseudo-header and the UDP header with its payload. -/
structure PacketLib where
  HeaderLen : Nat
  ipChecksum : IPHeader → Nat
  l4Checksum : IPHeader → Header → Nat

/-- Modelled from the spec: `NewDatagram(size, src, dst)` constructs a zeroed packet
of the given size addressed from `src` to `dst`; what the UDP header leaves of the
size is the payload buffer. -/
def NewDatagram (lib : PacketLib) (size : Nat) (src dst : List Nat) : Datagram :=
  { size := size,
    ipHdr := { source := src, destination := dst, checksum := 0 },
    udpHdr := { sourcePort := 0, destinationPort := 0, payloadLen := 0, checksum := 0,
                payload := List.replicate (size - lib.HeaderLen) 0 } }

/-- Modelled from the spec: the setter `ipHdr.SetChecksum()`, the checksum over the
header with a zero checksum field. -/
def IPHeader.SetChecksum (lib : PacketLib) (h : IPHeader) : IPHeader :=
  { h with checksum := lib.ipChecksum { h with checksum := 0 } }

/-- Modelled from the spec: the setter `udpHdr.SetSourcePort(port)`. -/
def Header.SetSourcePort (u : Header) (port : Nat) : Header := { u with sourcePort := port }

/-- Modelled from the spec: the setter `udpHdr.SetDestinationPort(port)`. -/
def Header.SetDestinationPort (u : Header) (port : Nat) : Header :=
  { u with destinationPort := port }

/-- Modelled from the spec: the setter `udpHdr.SetPayloadLen(l)`. -/
def Header.SetPayloadLen (u : Header) (l : Nat) : Header := { u with payloadLen := l }

/-- Go's builtin `copy(dst, src)`: as many elements as the shorter of the two holds. -/
def copy (dst src : List Nat) : List Nat := src.take dst.length ++ dst.drop src.length

/-- Modelled from the spec: the setter `udpHdr.SetChecksum(ipHdr)`, the checksum over
the pseudo-header and the UDP header with a zero checksum field. -/
def Header.SetChecksum (lib : PacketLib) (u : Header) (ipHdr : IPHeader) : Header :=
  { u with checksum := lib.l4Checksum ipHdr { u with checksum := 0 } }

/-- The case the final `select` of `HandleMessage` takes. -/
inductive SelectCase where
  | ctxDone
  | toTun

/-- The fields of the `handler` struct that `HandleMessage` uses; `toTun` holds the
packets delivered to the channel, oldest first. -/
structure handler where
  id : ConnID
  toTun : List Datagram

/-- The method `handler.HandleMessage(ctx, mdg)`. -/
def handler.HandleMessage (lib : PacketLib) (h : handler) (sel : SelectCase) (mdg : Message) :
    handler :=
  let payload := mdg.Payload
  let pkt := NewDatagram lib (lib.HeaderLen + payload.length) h.id.Destination h.id.Source
  let ipHdr := pkt.ipHdr.SetChecksum lib
  let udpHdr := pkt.udpHdr
  let udpHdr := udpHdr.SetSourcePort h.id.DestinationPort
  let udpHdr := udpHdr.SetDestinationPort h.id.SourcePort
  let udpHdr := udpHdr.SetPayloadLen (payload.length % 65536)
  let udpHdr := { udpHdr with payload := copy udpHdr.payload payload }
  let udpHdr := udpHdr.SetChecksum lib ipHdr
  let pkt := { pkt with ipHdr := ipHdr, udpHdr := udpHdr }
  match sel with
  | SelectCase.ctxDone => h
  | SelectCase.toTun => { h with toTun := h.toTun ++ [pkt] }

/-- The packet `HandleMessage` builds for a payload. -/
def replyPacket (lib : PacketLib) (id : ConnID) (payload : List Nat) : Datagram :=
  { size := lib.HeaderLen + payload.length,
    ipHdr := { source := id.Destination, destination := id.Source,
               checksum := lib.ipChecksum
                 { source := id.Destination, destination := id.Source, checksum := 0 } },
    udpHdr :=
      { sourcePort := id.DestinationPort, destinationPort := id.SourcePort,
        payloadLen := payload.length % 65536,
        checksum := lib.l4Checksum
          { source := id.Destination, destination := id.Source,
            checksum := lib.ipChecksum
              { source := id.Destination, destination := id.Source, checksum := 0 } }
          { sourcePort := id.DestinationPort, destinationPort := id.SourcePort,
            payloadLen := payload.length % 65536, checksum := 0, payload := payload },
        payload := payload } }

/-- A packet library with a UDP header of eight bytes and checksums that add up the
fields they cover. -/
def sumLib : PacketLib :=
  { HeaderLen := 8,
    ipChecksum := fun h => (h.source.sum + h.destination.sum) % 65536,
    l4Checksum := fun h u =>
      (h.source.sum + h.destination.sum + u.sourcePort + u.destinationPort + u.payloadLen +
        u.payload.sum) % 65536 }

/-- The connection `10.0.0.1:5000 -> 10.0.0.2:53` over UDP. -/
def dnsConn : ConnID :=
  { protocol := 17, source := [10, 0, 0, 1], sourcePort := 5000,
    destination := [10, 0, 0, 2], destinationPort := 53 }

end udp

/-! # Theorems -/

namespace connpool

/-! ## Receive -/

theorem BidiStream.Send_recvQueue (st : BidiStream) (cm : ConnMessage) :
    (st.Send cm).1.recvQueue = st.recvQueue := by
  unfold BidiStream.Send
  split <;> rfl

theorem BidiStream.Send_ok_sent (st st2 : BidiStream) (cm : ConnMessage)
    (h : st.Send cm = (st2, none)) : st2.sent = st.sent ++ [cm] := by
  unfold BidiStream.Send at h
  split at h
  · cases h; rfl
  · cases h; rfl
  · cases h

theorem ReceiveLoop_ok (ctx : Context) :
    ∀ (fuel i : Nat) (s s' : tunnel) (msg : Message),
      tunnel.ReceiveLoop ctx fuel i s = some (s', ReceiveResult.ok msg) →
      ∃ (pre : List ConnMessage) (rest : List (Except Error ConnMessage)),
      s.stream.recvQueue = pre.map Except.ok ++ Except.ok msg :: rest ∧
        (∀ f ∈ pre, isSync f = true) ∧ isSync msg = false ∧
        s'.stream.recvQueue = rest ∧
        s'.stream.sent = s.stream.sent ++
          (syncRequests pre).map (fun c => (Message.control (SyncResponseControl c)).TunnelMessage) ∧
        s'.counter = s.counter := by
  intro fuel
  induction fuel with
  | zero => intro i s s' msg h; simp [tunnel.ReceiveLoop] at h
  | succ n ih =>
    intro i s s' msg h
    rw [tunnel.ReceiveLoop] at h
    split at h
    · simp at h
    · rename_i hctx
      unfold BidiStream.Recv at h
      cases hq : s.stream.recvQueue with
      | nil => simp [hq] at h
      | cons r q =>
        simp only [hq] at h
        cases r with
        | error e => simp at h
        | ok cm =>
          simp only [FromConnMessage] at h
          cases cm with
          | data id p =>
            simp only [Message.asControl] at h
            injection h with h
            injection h with h1 h2
            injection h2 with h2
            subst h1; subst h2
            exact ⟨[], q, by simp, by simp, by simp [isSync, FromConnMessage, Message.asControl],
              rfl, by simp [syncRequests], rfl⟩
          | control c =>
            simp only [Message.asControl] at h
            rcases c with ⟨cid, code, ack⟩
            have hret : ∀ cd : ControlCode, cd ≠ ControlCode.SyncRequest →
                cd ≠ ControlCode.SyncResponse →
                some (({ s with stream := { s.stream with recvQueue := q } } : tunnel),
                  ReceiveResult.ok (Message.control ⟨cid, cd, ack⟩)) =
                  some (s', ReceiveResult.ok msg) →
                ∃ pre rest, (Except.ok (Message.control ⟨cid, cd, ack⟩) :: q :
                    List (Except Error ConnMessage)) =
                    pre.map Except.ok ++ Except.ok msg :: rest ∧
                  (∀ f ∈ pre, isSync f = true) ∧ isSync msg = false ∧
                  s'.stream.recvQueue = rest ∧
                  s'.stream.sent = s.stream.sent ++
                    (syncRequests pre).map
                      (fun c => (Message.control (SyncResponseControl c)).TunnelMessage) ∧
                  s'.counter = s.counter := by
              intro cd h1 h2 h
              injection h with h
              injection h with h3 h4
              injection h4 with h4
              subst h3; subst h4
              refine ⟨[], q, by simp, by simp, ?_, rfl, by simp [syncRequests], rfl⟩
              simp [isSync, FromConnMessage, Message.asControl, Control.Code, h1, h2]
            cases code with
            | SyncRequest =>
              simp only [Control.Code] at h
              split at h
              · simp at h
              · rename_i st2 hsend
                obtain ⟨pre, rest, hq', hpre, hmsg, hrest, hsent, hcnt⟩ := ih _ _ _ _ h
                have hrq : st2.recvQueue = q := by
                  have := BidiStream.Send_recvQueue { s.stream with recvQueue := q }
                    (Message.control (SyncResponseControl ⟨cid, ControlCode.SyncRequest, ack⟩)).TunnelMessage
                  rw [hsend] at this; exact this
                have hst := BidiStream.Send_ok_sent _ _ _ hsend
                simp only at hq' hsent hcnt
                refine ⟨Message.control ⟨cid, ControlCode.SyncRequest, ack⟩ :: pre, rest, ?_, ?_,
                  hmsg, hrest, ?_, hcnt⟩
                · rw [← hrq, hq']; simp
                · intro f hf
                  rcases List.mem_cons.mp hf with rfl | hf
                  · simp [isSync, FromConnMessage, Message.asControl, Control.Code]
                  · exact hpre f hf
                · rw [hsent, hst]
                  simp [syncRequests, FromConnMessage, Message.asControl, Control.Code]
            | SyncResponse =>
              simp only [Control.Code] at h
              obtain ⟨pre, rest, hq', hpre, hmsg, hrest, hsent, hcnt⟩ := ih _ _ _ _ h
              simp only at hq' hsent hcnt
              refine ⟨Message.control ⟨cid, ControlCode.SyncResponse, ack⟩ :: pre, rest, ?_, ?_,
                hmsg, hrest, ?_, hcnt⟩
              · rw [hq']; simp
              · intro f hf
                rcases List.mem_cons.mp hf with rfl | hf
                · simp [isSync, FromConnMessage, Message.asControl, Control.Code]
                · exact hpre f hf
              · rw [hsent]
                simp [syncRequests, FromConnMessage, Message.asControl, Control.Code]
            | Connect => exact hret _ (by simp) (by simp) h
            | ConnectOK => exact hret _ (by simp) (by simp) h
            | Disconnect => exact hret _ (by simp) (by simp) h
            | DisconnectOK => exact hret _ (by simp) (by simp) h
            | other k => exact hret _ (by simp) (by simp) h

theorem ReceiveLoop_isSome (ctx : Context) :
    ∀ (fuel i : Nat) (s : tunnel), s.stream.recvQueue.length < fuel →
      (tunnel.ReceiveLoop ctx fuel i s).isSome = true := by
  intro fuel
  induction fuel with
  | zero => intro i s h; simp at h
  | succ n ih =>
    intro i s h
    rw [tunnel.ReceiveLoop]
    split
    · rfl
    · unfold BidiStream.Recv
      cases hq : s.stream.recvQueue with
      | nil => rfl
      | cons r q =>
        rw [hq] at h
        simp only [List.length_cons, Nat.add_lt_add_iff_right] at h
        cases r with
        | error e => rfl
        | ok cm =>
          cases cm with
          | data id p => rfl
          | control c =>
            rcases c with ⟨cid, code, ack⟩
            cases code with
            | SyncRequest =>
              simp only [FromConnMessage, Message.asControl, Control.Code]
              split
              · rfl
              · rename_i st2 hsend
                apply ih
                have := BidiStream.Send_recvQueue { s.stream with recvQueue := q }
                  (Message.control (SyncResponseControl ⟨cid, ControlCode.SyncRequest, ack⟩)).TunnelMessage
                rw [hsend] at this
                simp only at this ⊢
                rw [this]; exact h
            | SyncResponse =>
              simp only [FromConnMessage, Message.asControl, Control.Code]
              apply ih
              exact h
            | Connect => rfl
            | ConnectOK => rfl
            | Disconnect => rfl
            | DisconnectOK => rfl
            | other k => rfl

/-- `Receive` always comes to a result: the iteration bound it runs with is never
exceeded. -/
theorem Receive_isSome (ctx : Context) (s : tunnel) : (s.Receive ctx).isSome = true :=
  ReceiveLoop_isSome ctx _ 0 s (Nat.lt_succ_self _)

theorem exampleReceive_run :
    exampleReceiveTunnel.Receive Context.background =
      some (exampleReceiveTunnelAfter, ReceiveResult.ok (Message.data syncID [1, 2])) := by
  rfl

theorem ReceiveLoop_returns_message (ctx : Context) (msg : Message)
    (rest : List (Except Error ConnMessage)) (hctx : ∀ n, ctx n = none)
    (hmsg : isSync msg = false) :
    ∀ (pre : List ConnMessage) (fuel i : Nat) (s : tunnel), pre.length < fuel →
      s.stream.sendResults = [] →
      s.stream.recvQueue = pre.map Except.ok ++ Except.ok msg :: rest →
      (∀ f ∈ pre, isSync f = true) →
      ∃ s', tunnel.ReceiveLoop ctx fuel i s = some (s', ReceiveResult.ok msg) := by
  intro pre
  induction pre with
  | nil =>
    intro fuel i s hf hs hq _
    obtain ⟨f, rfl⟩ : ∃ f, fuel = f + 1 := ⟨fuel - 1, by omega⟩
    simp only [List.map_nil, List.nil_append] at hq
    rw [tunnel.ReceiveLoop, hctx i]
    simp only [BidiStream.Recv, hq, FromConnMessage]
    cases msg with
    | data id p => exact ⟨_, rfl⟩
    | control c =>
      rcases c with ⟨cid, code, ack⟩
      cases code with
      | SyncRequest =>
        simp [isSync, FromConnMessage, Message.asControl, Control.Code] at hmsg
      | SyncResponse =>
        simp [isSync, FromConnMessage, Message.asControl, Control.Code] at hmsg
      | Connect => exact ⟨_, rfl⟩
      | ConnectOK => exact ⟨_, rfl⟩
      | Disconnect => exact ⟨_, rfl⟩
      | DisconnectOK => exact ⟨_, rfl⟩
      | other k => exact ⟨_, rfl⟩
  | cons x pre ih =>
    intro fuel i s hf hs hq hpre
    obtain ⟨f, rfl⟩ : ∃ f, fuel = f + 1 := ⟨fuel - 1, by omega⟩
    have hf' : pre.length < f := by simpa using hf
    have hx := hpre x (List.mem_cons_self _ _)
    have hpre' : ∀ y ∈ pre, isSync y = true := fun y hy => hpre y (List.mem_cons_of_mem _ hy)
    simp only [List.map_cons, List.cons_append] at hq
    rw [tunnel.ReceiveLoop, hctx i]
    simp only [BidiStream.Recv, hq, FromConnMessage]
    cases x with
    | data id p => simp [isSync, FromConnMessage, Message.asControl] at hx
    | control c =>
      rcases c with ⟨cid, code, ack⟩
      cases code with
      | SyncRequest =>
        simp only [Message.asControl, Control.Code, BidiStream.Send, hs]
        exact ih f (i + 1) _ hf' rfl rfl hpre'
      | SyncResponse =>
        simp only [Message.asControl, Control.Code]
        exact ih f (i + 1) _ hf' hs rfl hpre'
      | Connect => simp [isSync, FromConnMessage, Message.asControl, Control.Code] at hx
      | ConnectOK => simp [isSync, FromConnMessage, Message.asControl, Control.Code] at hx
      | Disconnect => simp [isSync, FromConnMessage, Message.asControl, Control.Code] at hx
      | DisconnectOK => simp [isSync, FromConnMessage, Message.asControl, Control.Code] at hx
      | other k => simp [isSync, FromConnMessage, Message.asControl, Control.Code] at hx

/-- Under a context that is never cancelled and on a stream whose writes succeed,
`Receive` does return the first frame that is neither a sync request nor a sync
response. -/
theorem Receive_returns_message (ctx : Context) (s : tunnel) (pre : List ConnMessage)
    (msg : Message) (rest : List (Except Error ConnMessage)) (hctx : ∀ n, ctx n = none)
    (hs : s.stream.sendResults = [])
    (hq : s.stream.recvQueue = pre.map Except.ok ++ Except.ok msg :: rest)
    (hpre : ∀ f ∈ pre, isSync f = true) (hmsg : isSync msg = false) :
    ∃ s', s.Receive ctx = some (s', ReceiveResult.ok msg) := by
  apply ReceiveLoop_returns_message ctx msg rest hctx hmsg pre _ 0 s _ hs hq hpre
  rw [hq]
  simp only [List.length_append, List.length_map, List.length_cons]
  omega

/-- C2: whenever `Receive` returns a message without error, that message is neither a
`SyncRequest` nor a `SyncResponse`, it is the first frame of the incoming sequence
that is not of those two kinds, every frame before it is one of the two kinds, and
exactly those frames and the returned one were taken off the stream. -/
theorem Receive_returns_first_non_sync (ctx : Context) (s s' : tunnel) (msg : Message)
    (h : s.Receive ctx = some (s', ReceiveResult.ok msg)) :
    (∀ c, msg = Message.control c →
        c.Code ≠ ControlCode.SyncRequest ∧ c.Code ≠ ControlCode.SyncResponse) ∧
    ∃ (pre : List ConnMessage) (rest : List (Except Error ConnMessage)),
      s.stream.recvQueue = pre.map Except.ok ++ Except.ok msg :: rest ∧
      (∀ f ∈ pre, ∃ c, f = Message.control c ∧
        (c.Code = ControlCode.SyncRequest ∨ c.Code = ControlCode.SyncResponse)) ∧
      s'.stream.recvQueue = rest := by
  obtain ⟨pre, rest, hq, hpre, hmsg, hrest, -, -⟩ := ReceiveLoop_ok ctx _ _ _ _ _ h
  refine ⟨?_, pre, rest, hq, ?_, hrest⟩
  · intro c hc
    subst hc
    simpa [isSync, FromConnMessage, Message.asControl, not_or] using hmsg
  · intro f hf
    have := hpre f hf
    cases f with
    | data id p => simp [isSync, FromConnMessage, Message.asControl] at this
    | control c =>
      exact ⟨c, rfl, by simpa [isSync, FromConnMessage, Message.asControl] using this⟩

theorem Receive_returns_first_non_sync_witness :
    exampleReceiveTunnel.Receive Context.background =
        some (exampleReceiveTunnelAfter, ReceiveResult.ok (Message.data syncID [1, 2])) ∧
    ((∀ c, Message.data syncID [1, 2] = Message.control c →
        c.Code ≠ ControlCode.SyncRequest ∧ c.Code ≠ ControlCode.SyncResponse) ∧
    ∃ (pre : List ConnMessage) (rest : List (Except Error ConnMessage)),
      exampleReceiveTunnel.stream.recvQueue =
        pre.map Except.ok ++ Except.ok (Message.data syncID [1, 2]) :: rest ∧
      (∀ f ∈ pre, ∃ c, f = Message.control c ∧
        (c.Code = ControlCode.SyncRequest ∨ c.Code = ControlCode.SyncResponse)) ∧
      exampleReceiveTunnelAfter.stream.recvQueue = rest) :=
  ⟨exampleReceive_run,
    Receive_returns_first_non_sync Context.background exampleReceiveTunnel
      exampleReceiveTunnelAfter (Message.data syncID [1, 2]) exampleReceive_run⟩

/-- C3: the frames a successful `Receive` writes to the stream are exactly one
`SyncResponse` per consumed `SyncRequest`, in the same order, each with the ack
number of the request it answers; nothing is written for the other frames. -/
theorem Receive_writes_sync_responses (ctx : Context) (s s' : tunnel) (msg : Message)
    (h : s.Receive ctx = some (s', ReceiveResult.ok msg)) :
    ∃ (pre : List ConnMessage) (rest : List (Except Error ConnMessage)),
      s.stream.recvQueue = pre.map Except.ok ++ Except.ok msg :: rest ∧
      s'.stream.recvQueue = rest ∧
      s'.stream.sent = s.stream.sent ++
        (syncRequests pre).map (fun c => (Message.control (SyncResponseControl c)).TunnelMessage) ∧
      ∀ c ∈ syncRequests pre,
        (SyncResponseControl c).Code = ControlCode.SyncResponse ∧
        (SyncResponseControl c).AckNumber = c.AckNumber := by
  obtain ⟨pre, rest, hq, -, -, hrest, hsent, -⟩ := ReceiveLoop_ok ctx _ _ _ _ _ h
  refine ⟨pre, rest, hq, hrest, hsent, ?_⟩
  intro c _
  refine ⟨rfl, ?_⟩
  simp [SyncResponseControl, Control.AckNumber]

theorem Receive_writes_sync_responses_witness :
    exampleReceiveTunnel.Receive Context.background =
        some (exampleReceiveTunnelAfter, ReceiveResult.ok (Message.data syncID [1, 2])) ∧
    ∃ (pre : List ConnMessage) (rest : List (Except Error ConnMessage)),
      exampleReceiveTunnel.stream.recvQueue =
        pre.map Except.ok ++ Except.ok (Message.data syncID [1, 2]) :: rest ∧
      exampleReceiveTunnelAfter.stream.recvQueue = rest ∧
      exampleReceiveTunnelAfter.stream.sent = exampleReceiveTunnel.stream.sent ++
        (syncRequests pre).map (fun c => (Message.control (SyncResponseControl c)).TunnelMessage) ∧
      ∀ c ∈ syncRequests pre,
        (SyncResponseControl c).Code = ControlCode.SyncResponse ∧
        (SyncResponseControl c).AckNumber = c.AckNumber :=
  ⟨exampleReceive_run,
    Receive_writes_sync_responses Context.background exampleReceiveTunnel
      exampleReceiveTunnelAfter (Message.data syncID [1, 2]) exampleReceive_run⟩

/-! ## CloseSend -/

/-- C7: on a stream without a half-close operation `CloseSend` returns a non-nil
error and leaves the whole tunnel, its stream, `lastAck` and `counter` included, as
it was. -/
theorem CloseSend_without_half_close (s : tunnel) (h : s.stream.halfClose = none) :
    s.CloseSend.2 = some "tunnel does not implement CloseSend()" ∧
    s.CloseSend.2 ≠ none ∧
    s.CloseSend.1 = s ∧
    s.CloseSend.1.stream = s.stream ∧
    s.CloseSend.1.lastAck = s.lastAck ∧
    s.CloseSend.1.counter = s.counter := by
  unfold tunnel.CloseSend
  rw [h]
  simp

theorem CloseSend_without_half_close_witness :
    (NewTunnel (idleStream none)).stream.halfClose = none ∧
    ((NewTunnel (idleStream none)).CloseSend.2 = some "tunnel does not implement CloseSend()" ∧
    (NewTunnel (idleStream none)).CloseSend.2 ≠ none ∧
    (NewTunnel (idleStream none)).CloseSend.1 = NewTunnel (idleStream none) ∧
    (NewTunnel (idleStream none)).CloseSend.1.stream = (NewTunnel (idleStream none)).stream ∧
    (NewTunnel (idleStream none)).CloseSend.1.lastAck = (NewTunnel (idleStream none)).lastAck ∧
    (NewTunnel (idleStream none)).CloseSend.1.counter = (NewTunnel (idleStream none)).counter) :=
  ⟨rfl, CloseSend_without_half_close (NewTunnel (idleStream none)) rfl⟩

/-- With a half-close operation `CloseSend` stores the largest `uint32` in `lastAck`
and invokes the operation once, returning its result. -/
theorem CloseSend_with_half_close (s : tunnel) (r : Option Error)
    (h : s.stream.halfClose = some r) :
    s.CloseSend.2 = r ∧ s.CloseSend.1.lastAck = MaxUint32 ∧
    s.CloseSend.1.counter = s.counter ∧
    s.CloseSend.1.stream.closeSendCalls = s.stream.closeSendCalls + 1 := by
  unfold tunnel.CloseSend
  rw [h]
  simp

/-! ## The poll loop of sync -/

theorem syncWait_frame (ackSent : Nat) (ctx : Context) (loads : Nat → Nat) :
    ∀ (fuel n : Nat) (s s' : tunnel), tunnel.syncWait ackSent ctx loads fuel n s = some s' →
      s'.stream = s.stream ∧ s'.counter = s.counter ∧ s'.syncRatio = s.syncRatio ∧
      s'.ackWindow = s.ackWindow := by
  intro fuel
  induction fuel with
  | zero => intro n s s' h; simp [tunnel.syncWait] at h
  | succ k ih =>
    intro n s s' h
    rw [tunnel.syncWait] at h
    split at h
    · cases h; exact ⟨rfl, rfl, rfl, rfl⟩
    · simp only at h
      split at h
      · cases h; exact ⟨rfl, rfl, rfl, rfl⟩
      · exact ih (n + 1) { s with lastAck := loads n % 2 ^ 32 } s' h

/-- The poll loop is still waiting after `fuel` polls when none of them found the
context cancelled or the condition true. -/
theorem syncWait_none (ackSent : Nat) (ctx : Context) (loads : Nat → Nat) :
    ∀ (fuel n : Nat) (s : tunnel),
      (∀ k, k < fuel → ctx (n + k) = none ∧
        ackReached ackSent (loads (n + k) % 2 ^ 32) s.ackWindow = false) →
      tunnel.syncWait ackSent ctx loads fuel n s = none := by
  intro fuel
  induction fuel with
  | zero => intro n s _; rfl
  | succ f ih =>
    intro n s h
    rw [tunnel.syncWait]
    have h0 := h 0 (Nat.succ_pos f)
    simp only [Nat.add_zero] at h0
    rw [h0.1]
    simp only [h0.2]
    apply ih
    intro k hk
    have := h (k + 1) (Nat.succ_lt_succ hk)
    rw [show n + (k + 1) = n + 1 + k by omega] at this
    exact this

/-- The poll loop returns at the first poll that finds the context cancelled or the
condition true, provided its bound admits that many polls. -/
theorem syncWait_some (ackSent : Nat) (ctx : Context) (loads : Nat → Nat) :
    ∀ (m fuel n : Nat) (s : tunnel), m < fuel →
      (∀ k, k < m → ctx (n + k) = none ∧
        ackReached ackSent (loads (n + k) % 2 ^ 32) s.ackWindow = false) →
      (ctx (n + m) ≠ none ∨ ackReached ackSent (loads (n + m) % 2 ^ 32) s.ackWindow = true) →
      (tunnel.syncWait ackSent ctx loads fuel n s).isSome = true := by
  intro m
  induction m with
  | zero =>
    intro fuel n s hf _ hm
    obtain ⟨f, rfl⟩ : ∃ f, fuel = f + 1 := ⟨fuel - 1, by omega⟩
    rw [tunnel.syncWait]
    simp only [Nat.add_zero] at hm
    split
    · rfl
    · rename_i hc
      rcases hm with hm | hm
      · exact absurd hc hm
      · rw [if_pos hm]; rfl
  | succ j ih =>
    intro fuel n s hf hbefore hm
    obtain ⟨f, rfl⟩ : ∃ f, fuel = f + 1 := ⟨fuel - 1, by omega⟩
    rw [tunnel.syncWait]
    have h0 := hbefore 0 (Nat.succ_pos j)
    simp only [Nat.add_zero] at h0
    rw [h0.1]
    simp only [h0.2]
    apply ih f (n + 1) _ (by omega)
    · intro k hk
      have := hbefore (k + 1) (Nat.succ_lt_succ hk)
      rw [show n + (k + 1) = n + 1 + k by omega] at this
      exact this
    · rw [show n + 1 + j = n + (j + 1) by omega]
      exact hm

/-! ## Send -/

/-- A data `Send` whose counter increment reaches a multiple of `syncRatio`, once the
data frame and the sync request are written, is the poll loop. -/
theorem Send_sync_eq (fuel : Nat) (ctx : Context) (loads : Nat → Nat) (s : tunnel) (m : Message)
    (st1 st2 : BidiStream) (hm : m.asControl = none)
    (hdata : s.stream.Send m.TunnelMessage = (st1, none))
    (hsync : (s.counter + 1) % 2 ^ 32 % s.syncRatio = 0)
    (hreq : st1.Send (Message.control
      (SyncRequestControl ((s.counter + 1) % 2 ^ 32 / s.syncRatio))).TunnelMessage = (st2, none)) :
    s.Send fuel ctx loads m =
      (tunnel.syncWait ((s.counter + 1) % 2 ^ 32 / s.syncRatio) ctx loads fuel 0
        { s with stream := st2, counter := (s.counter + 1) % 2 ^ 32 }).map (fun s1 => (s1, none)) := by
  unfold tunnel.Send
  rw [hdata]
  simp only [hm]
  rw [if_pos hsync]
  unfold tunnel.sync
  simp only
  rw [hreq]

/-- A data `Send` whose sync request cannot be written returns the write error. -/
theorem Send_sync_request_fails (fuel : Nat) (ctx : Context) (loads : Nat → Nat) (s : tunnel)
    (m : Message) (st1 st2 : BidiStream) (e : Error) (hm : m.asControl = none)
    (hdata : s.stream.Send m.TunnelMessage = (st1, none))
    (hsync : (s.counter + 1) % 2 ^ 32 % s.syncRatio = 0)
    (hreq : st1.Send (Message.control
      (SyncRequestControl ((s.counter + 1) % 2 ^ 32 / s.syncRatio))).TunnelMessage = (st2, some e)) :
    s.Send fuel ctx loads m =
      some ({ s with stream := st2, counter := (s.counter + 1) % 2 ^ 32 }, some e) := by
  unfold tunnel.Send
  rw [hdata]
  simp only [hm]
  rw [if_pos hsync]
  unfold tunnel.sync
  simp only
  rw [hreq]

/-- With the largest `uint32` as `lastAck` and a window of one, the wait condition
holds for no ack number but zero: the sum wraps around to zero. -/
theorem ackReached_max (ackSent : Nat) :
    ackReached ackSent MaxUint32 1 = true ↔ ackSent = 0 := by
  simp [ackReached, MaxUint32]

/-- Below the largest `uint32` the wait condition, for a window of one, is the
comparison `ackSent - 1 ≤ lastAck` of the unbounded integers. -/
theorem ackReached_below_max (ackSent lastAck : Nat) (h : lastAck < MaxUint32) :
    ackReached ackSent lastAck 1 = true ↔ ackSent - 1 ≤ lastAck := by
  unfold MaxUint32 at h
  simp only [ackReached, decide_eq_true_eq]
  omega

/-- C4: after `CloseSend` on a half-closable stream `lastAck` is the largest `uint32`,
but the wait condition of a handshake in progress with ack number one is false for
that value, because `lastAck + ackWindow` wraps to zero; the poll loop that reads
this value never exits. -/
theorem CloseSend_sentinel_fails_wait_condition :
    eightSentTunnel.CloseSend.1.lastAck = MaxUint32 ∧
    ackReached (eightSentTunnel.counter / eightSentTunnel.syncRatio)
      eightSentTunnel.CloseSend.1.lastAck eightSentTunnel.CloseSend.1.ackWindow = false ∧
    ∀ fuel, tunnel.syncWait (eightSentTunnel.counter / eightSentTunnel.syncRatio)
      Context.background (fun _ => eightSentTunnel.CloseSend.1.lastAck) fuel 0
      eightSentTunnel.CloseSend.1 = none := by
  refine ⟨rfl, by decide, ?_⟩
  intro fuel
  apply syncWait_none
  intro k _
  exact ⟨rfl, by decide⟩

/-- C5: a data `Send` that starts the handshake with ack number one and whose every
load of `lastAck` observes the largest `uint32`, a value at or above
`ackSent - ackWindow`, does not return however many polls it is given. -/
theorem Send_waits_forever_on_max_lastAck :
    (sevenSentTunnel.counter + 1) / sevenSentTunnel.syncRatio - sevenSentTunnel.ackWindow
      ≤ MaxUint32 ∧
    ∀ fuel, sevenSentTunnel.Send fuel Context.background (fun _ => MaxUint32)
      (NewMessage syncID []) = none := by
  refine ⟨by decide, ?_⟩
  intro fuel
  rw [Send_sync_eq fuel Context.background (fun _ => MaxUint32) sevenSentTunnel
    (NewMessage syncID []) _ _ rfl rfl (by decide) rfl]
  rw [syncWait_none]
  · rfl
  · intro k _
    exact ⟨rfl, by decide⟩

/-- As long as the loads of `lastAck` stay below the largest `uint32`, a data `Send`
that starts the handshake under a context that is never cancelled is still waiting
while every observed `lastAck` is below `ackSent - ackWindow`, and returns at the
first poll that observes a value at or above it. -/
theorem Send_sync_wait_below_max (fuel : Nat) (loads : Nat → Nat) (s : tunnel) (m : Message)
    (st1 st2 : BidiStream) (hm : m.asControl = none) (hw : s.ackWindow = 1)
    (_hratio : 0 < s.syncRatio) (hdata : s.stream.Send m.TunnelMessage = (st1, none))
    (hsync : (s.counter + 1) % 2 ^ 32 % s.syncRatio = 0)
    (hreq : st1.Send (Message.control
      (SyncRequestControl ((s.counter + 1) % 2 ^ 32 / s.syncRatio))).TunnelMessage = (st2, none))
    (hlt : ∀ k, loads k % 2 ^ 32 < MaxUint32) :
    ((∀ k, k < fuel →
        loads k % 2 ^ 32 < (s.counter + 1) % 2 ^ 32 / s.syncRatio - s.ackWindow) →
      s.Send fuel Context.background loads m = none) ∧
    (∀ j, j < fuel →
      (∀ k, k < j →
        loads k % 2 ^ 32 < (s.counter + 1) % 2 ^ 32 / s.syncRatio - s.ackWindow) →
      (s.counter + 1) % 2 ^ 32 / s.syncRatio - s.ackWindow ≤ loads j % 2 ^ 32 →
      (s.Send fuel Context.background loads m).isSome = true) := by
  rw [Send_sync_eq fuel Context.background loads s m st1 st2 hm hdata hsync hreq]
  have key : ∀ k, ackReached ((s.counter + 1) % 2 ^ 32 / s.syncRatio) (loads k % 2 ^ 32)
      s.ackWindow = false ↔
      loads k % 2 ^ 32 < (s.counter + 1) % 2 ^ 32 / s.syncRatio - s.ackWindow := by
    intro k
    rw [hw, ← Bool.not_eq_true, ackReached_below_max _ _ (hlt k)]
    omega
  constructor
  · intro h
    rw [syncWait_none]
    · rfl
    · intro k hk
      simp only [Nat.zero_add]
      exact ⟨rfl, (key k).mpr (h k hk)⟩
  · intro j hj hbefore hat
    rw [Option.isSome_map']
    apply syncWait_some _ _ _ j fuel 0 _ hj
    · intro k hk
      simp only [Nat.zero_add]
      exact ⟨rfl, (key k).mpr (hbefore k hk)⟩
    · right
      simp only [Nat.zero_add]
      have := (key j).not.mpr (by omega)
      simpa using this

/-- C6, as the claim states it: a data `Send` that starts the handshake with ack number
two while `lastAck` is zero, so that the wait condition is false, under a cancelled
context, returns nil and not an error. -/
theorem Send_cancelled_wait_returns_nil :
    ackReached ((fifteenSentTunnel.counter + 1) / fifteenSentTunnel.syncRatio) 0
      fifteenSentTunnel.ackWindow = false ∧
    (fifteenSentTunnel.Send 1 Context.cancelled (fun _ => 0) (NewMessage syncID [])).map
      Prod.snd = some none := by
  exact ⟨by decide, rfl⟩

/-- C6, amended: when a data `Send` starts the handshake, a sync request that cannot be
written makes `Send` return that error; when it is written, `Send` returns nil
whenever it returns, and it does return at the first poll that finds the wait
condition true or the context cancelled. -/
theorem Send_handshake_result (fuel : Nat) (ctx : Context) (loads : Nat → Nat) (s : tunnel)
    (m : Message) (st1 st2 : BidiStream) (r : Option Error) (hm : m.asControl = none)
    (_hratio : 0 < s.syncRatio) (hdata : s.stream.Send m.TunnelMessage = (st1, none))
    (hsync : (s.counter + 1) % 2 ^ 32 % s.syncRatio = 0)
    (hreq : st1.Send (Message.control
      (SyncRequestControl ((s.counter + 1) % 2 ^ 32 / s.syncRatio))).TunnelMessage = (st2, r)) :
    (∀ e, r = some e → (s.Send fuel ctx loads m).map Prod.snd = some (some e)) ∧
    (r = none →
      (∀ res, s.Send fuel ctx loads m = some res → res.2 = none) ∧
      (∀ n, n < fuel →
        (∀ k, k < n → ctx k = none ∧
          ackReached ((s.counter + 1) % 2 ^ 32 / s.syncRatio) (loads k % 2 ^ 32)
            s.ackWindow = false) →
        (ctx n ≠ none ∨
          ackReached ((s.counter + 1) % 2 ^ 32 / s.syncRatio) (loads n % 2 ^ 32)
            s.ackWindow = true) →
        (s.Send fuel ctx loads m).isSome = true)) := by
  constructor
  · intro e he
    subst he
    rw [Send_sync_request_fails fuel ctx loads s m st1 st2 e hm hdata hsync hreq]
    rfl
  · intro hr
    subst hr
    rw [Send_sync_eq fuel ctx loads s m st1 st2 hm hdata hsync hreq]
    constructor
    · intro res hres
      rcases Option.map_eq_some'.mp hres with ⟨s1, -, rfl⟩
      rfl
    · intro n hn hbefore hat
      rw [Option.isSome_map']
      apply syncWait_some _ _ _ n fuel 0 _ hn
      · intro k hk
        simp only [Nat.zero_add]
        exact hbefore k hk
      · simp only [Nat.zero_add]
        exact hat

theorem Send_handshake_result_witness :
    ((NewMessage syncID []).asControl = none ∧
      0 < fifteenSentTunnel.syncRatio ∧
      fifteenSentTunnel.stream.Send (NewMessage syncID []).TunnelMessage =
        (sixteenthDataWritten, none) ∧
      (fifteenSentTunnel.counter + 1) % 2 ^ 32 % fifteenSentTunnel.syncRatio = 0 ∧
      sixteenthDataWritten.Send (Message.control (SyncRequestControl
        ((fifteenSentTunnel.counter + 1) % 2 ^ 32 / fifteenSentTunnel.syncRatio))).TunnelMessage =
        (secondSyncRequestWritten, none)) ∧
    ((∀ e, (none : Option Error) = some e →
        (fifteenSentTunnel.Send 1 Context.cancelled (fun _ => 0) (NewMessage syncID [])).map
          Prod.snd = some (some e)) ∧
    ((none : Option Error) = none →
      (∀ res, fifteenSentTunnel.Send 1 Context.cancelled (fun _ => 0) (NewMessage syncID []) =
          some res → res.2 = none) ∧
      (∀ n, n < 1 →
        (∀ k, k < n → Context.cancelled k = none ∧
          ackReached ((fifteenSentTunnel.counter + 1) % 2 ^ 32 / fifteenSentTunnel.syncRatio)
            ((fun _ => 0) k % 2 ^ 32) fifteenSentTunnel.ackWindow = false) →
        (Context.cancelled n ≠ none ∨
          ackReached ((fifteenSentTunnel.counter + 1) % 2 ^ 32 / fifteenSentTunnel.syncRatio)
            ((fun _ => 0) n % 2 ^ 32) fifteenSentTunnel.ackWindow = true) →
        (fifteenSentTunnel.Send 1 Context.cancelled (fun _ => 0)
          (NewMessage syncID [])).isSome = true))) :=
  ⟨⟨rfl, by decide, rfl, by decide, rfl⟩,
    Send_handshake_result 1 Context.cancelled (fun _ => 0) fifteenSentTunnel
      (NewMessage syncID []) sixteenthDataWritten secondSyncRequestWritten none rfl (by decide)
      rfl (by decide) rfl⟩

/-! ## Sequences of data sends -/

theorem Send_data_ok (fuel : Nat) (ctx : Context) (loads : Nat → Nat) (s s1 : tunnel)
    (m : Message) (total : Nat) (hm : m.asControl = none) (hr : s.syncRatio = 8)
    (hc : s.counter = total % 2 ^ 32)
    (h : s.Send fuel ctx loads m = some (s1, none)) :
    s1.syncRatio = 8 ∧ s1.counter = (total + 1) % 2 ^ 32 ∧
    s1.stream.sent = s.stream.sent ++
      (if (total + 1) % 8 = 0 then
        [m.TunnelMessage,
          (Message.control (SyncRequestControl ((total + 1) / 8 % 2 ^ 29))).TunnelMessage]
      else [m.TunnelMessage]) := by
  have hc1 : (s.counter + 1) % 2 ^ 32 = (total + 1) % 2 ^ 32 := by rw [hc]; omega
  have hmod : (total + 1) % 2 ^ 32 % 8 = (total + 1) % 8 := by omega
  have hdiv : (total + 1) % 2 ^ 32 / 8 = (total + 1) / 8 % 2 ^ 29 := by omega
  unfold tunnel.Send at h
  split at h
  · cases h
  · rename_i st hsend
    have hsent := BidiStream.Send_ok_sent _ _ _ hsend
    simp only [hm, hr, hc1, hmod] at h
    split at h
    · rename_i h8
      unfold tunnel.sync at h
      simp only [hr, hdiv] at h
      split at h
      · cases h
      · rename_i st2 hsend2
        have hsent2 := BidiStream.Send_ok_sent _ _ _ hsend2
        rcases Option.map_eq_some'.mp h with ⟨s2, hw, heq⟩
        obtain ⟨h1, h2, h3, -⟩ := syncWait_frame _ _ _ _ _ _ _ hw
        cases heq
        refine ⟨by rw [h3], by rw [h2], ?_⟩
        rw [h1, if_pos h8]
        simp only at hsent2 ⊢
        rw [hsent2, hsent]
        simp
    · rename_i h8
      cases h
      refine ⟨rfl, rfl, ?_⟩
      rw [if_neg h8]
      exact hsent

theorem runSends_sent : ∀ (calls : List SendCall) (s s' : tunnel) (total : Nat),
    (∀ c ∈ calls, c.msg.asControl = none) → s.syncRatio = 8 → s.counter = total % 2 ^ 32 →
    runSends s calls = some s' →
    s'.stream.sent = s.stream.sent ++ framesFrom total (calls.map SendCall.msg) := by
  intro calls
  induction calls with
  | nil =>
    intro s s' total _ _ _ h
    simp only [runSends, Option.some.injEq] at h
    subst h
    simp [framesFrom]
  | cons c cs ih =>
    intro s s' total hdata hr hc h
    rw [runSends] at h
    split at h
    · rename_i s1 hsend
      have hm : c.msg.asControl = none := hdata c (List.mem_cons_self _ _)
      obtain ⟨hr1, hc1, hsent1⟩ := Send_data_ok _ _ _ _ _ _ total hm hr hc hsend
      have := ih s1 s' (total + 1) (fun c hc => hdata c (List.mem_cons_of_mem _ hc)) hr1 hc1 h
      rw [this, hsent1]
      simp only [List.map_cons, framesFrom]
      split <;> simp
    · cases h

theorem isSyncRequest_syncRequest (a : Nat) :
    isSyncRequest (Message.control (SyncRequestControl a)).TunnelMessage = true := by
  simp [isSyncRequest, FromConnMessage, Message.TunnelMessage, Message.asControl,
    SyncRequestControl, Control.Code]

theorem isSyncRequest_data (m : Message) (hm : m.asControl = none) :
    isSyncRequest m.TunnelMessage = false := by
  simp [isSyncRequest, FromConnMessage, Message.TunnelMessage, hm]

theorem framesFrom_filter_sync : ∀ (msgs : List Message) (total : Nat),
    (∀ m ∈ msgs, m.asControl = none) →
    (framesFrom total msgs).filter isSyncRequest =
      (List.range' (total / 8 + 1) ((total + msgs.length) / 8 - total / 8)).map
        (fun k => (Message.control (SyncRequestControl (k % 2 ^ 29))).TunnelMessage) := by
  intro msgs
  induction msgs with
  | nil => intro total _; simp [framesFrom]
  | cons m ms ih =>
    intro total hdata
    have hm := hdata m (List.mem_cons_self _ _)
    have ih' := ih (total + 1) (fun x hx => hdata x (List.mem_cons_of_mem _ hx))
    rw [framesFrom]
    by_cases h8 : (total + 1) % 8 = 0
    · rw [if_pos h8, List.filter_cons, isSyncRequest_data m hm, List.filter_cons,
        isSyncRequest_syncRequest, ih']
      have e1 : (total + (m :: ms).length) / 8 - total / 8 =
          ((total + 1 + ms.length) / 8 - (total + 1) / 8) + 1 := by
        simp only [List.length_cons]; omega
      have e2 : total / 8 + 1 = (total + 1) / 8 := by omega
      rw [e1, List.range'_succ, e2]
      simp
    · rw [if_neg h8, List.filter_cons, isSyncRequest_data m hm, ih']
      have e1 : (total + (m :: ms).length) / 8 - total / 8 =
          (total + 1 + ms.length) / 8 - (total + 1) / 8 := by
        simp only [List.length_cons]; omega
      have e2 : total / 8 = (total + 1) / 8 := by omega
      rw [e1, e2]
      simp

theorem framesFrom_filter_data : ∀ (msgs : List Message) (total : Nat),
    (∀ m ∈ msgs, m.asControl = none) →
    (framesFrom total msgs).filter (fun cm => !isSyncRequest cm) =
      msgs.map Message.TunnelMessage := by
  intro msgs
  induction msgs with
  | nil => intro total _; simp [framesFrom]
  | cons m ms ih =>
    intro total hdata
    have hm := hdata m (List.mem_cons_self _ _)
    have ih' := ih (total + 1) (fun x hx => hdata x (List.mem_cons_of_mem _ hx))
    rw [framesFrom]
    split
    · simp [List.filter_cons, isSyncRequest_data m hm, isSyncRequest_syncRequest, ih']
    · simp [List.filter_cons, isSyncRequest_data m hm, ih']

theorem framesFrom_getElem : ∀ (msgs : List Message) (total j : Nat), j < msgs.length →
    (framesFrom total msgs)[j + ((total + j) / 8 - total / 8)]? =
        (msgs.map Message.TunnelMessage)[j]? ∧
    ((total + j + 1) % 8 = 0 →
      (framesFrom total msgs)[j + 1 + ((total + j) / 8 - total / 8)]? =
        some (Message.control
          (SyncRequestControl ((total + j + 1) / 8 % 2 ^ 29))).TunnelMessage) := by
  intro msgs
  induction msgs with
  | nil => intro total j hj; simp at hj
  | cons m ms ih =>
    intro total j hj
    cases j with
    | zero =>
      have e0 : 0 + ((total + 0) / 8 - total / 8) = 0 := by omega
      have e1 : 0 + 1 + ((total + 0) / 8 - total / 8) = 1 := by omega
      rw [e0, e1, framesFrom]
      constructor
      · split <;> simp
      · intro h8
        rw [if_pos (by omega)]
        simp
    | succ j' =>
      have hj' : j' < ms.length := by simpa using hj
      obtain ⟨ih1, ih2⟩ := ih (total + 1) j' hj'
      rw [framesFrom]
      by_cases h8 : (total + 1) % 8 = 0
      · rw [if_pos h8]
        have e0 : j' + 1 + ((total + (j' + 1)) / 8 - total / 8) =
            (j' + ((total + 1 + j') / 8 - (total + 1) / 8)) + 1 + 1 := by omega
        have e1 : j' + 1 + 1 + ((total + (j' + 1)) / 8 - total / 8) =
            (j' + 1 + ((total + 1 + j') / 8 - (total + 1) / 8)) + 1 + 1 := by omega
        rw [e0, e1]
        simp only [List.getElem?_cons_succ, List.map_cons]
        refine ⟨ih1, ?_⟩
        intro h
        rw [ih2 (by omega)]
        rw [show total + 1 + j' + 1 = total + (j' + 1) + 1 by omega]
      · rw [if_neg h8]
        have e0 : j' + 1 + ((total + (j' + 1)) / 8 - total / 8) =
            (j' + ((total + 1 + j') / 8 - (total + 1) / 8)) + 1 := by omega
        have e1 : j' + 1 + 1 + ((total + (j' + 1)) / 8 - total / 8) =
            (j' + 1 + ((total + 1 + j') / 8 - (total + 1) / 8)) + 1 := by omega
        rw [e0, e1]
        simp only [List.getElem?_cons_succ, List.map_cons]
        refine ⟨ih1, ?_⟩
        intro h
        rw [ih2 (by omega)]
        rw [show total + 1 + j' + 1 = total + (j' + 1) + 1 by omega]

/-- A data `Send` on a stream whose writes succeed, whose first load of `lastAck`
observes `2^32 - 2`, returns nil at its first poll. -/
theorem Send_data_returns (f : Nat) (ctx : Context) (loads : Nat → Nat) (s : tunnel)
    (m : Message) (hm : m.asControl = none) (hs : s.stream.sendResults = [])
    (hr : s.syncRatio = 8) (hw : s.ackWindow = 1) (hctx : ctx 0 = none)
    (hl : loads 0 % 2 ^ 32 = 4294967294) :
    ∃ s1, s.Send (f + 1) ctx loads m = some (s1, none) ∧ s1.stream.sendResults = [] ∧
      s1.syncRatio = 8 ∧ s1.ackWindow = 1 := by
  unfold tunnel.Send
  simp only [BidiStream.Send, hs, hm, hr]
  split
  · unfold tunnel.sync
    simp only [BidiStream.Send, hs, tunnel.syncWait, hctx, hl, hw, hr]
    have : ackReached ((s.counter + 1) % 2 ^ 32 / 8) 4294967294 1 = true := by
      simp only [ackReached, decide_eq_true_eq]
      omega
    rw [if_pos this]
    exact ⟨_, rfl, rfl, rfl, rfl⟩
  · exact ⟨_, rfl, rfl, rfl, hw⟩

theorem runSends_returns : ∀ (calls : List SendCall) (s : tunnel),
    (∀ c ∈ calls, c.msg.asControl = none ∧ 0 < c.fuel ∧ c.ctx 0 = none ∧
      c.loads 0 % 2 ^ 32 = 4294967294) →
    s.stream.sendResults = [] → s.syncRatio = 8 → s.ackWindow = 1 →
    ∃ s', runSends s calls = some s' := by
  intro calls
  induction calls with
  | nil => intro s _ _ _ _; exact ⟨s, rfl⟩
  | cons c cs ih =>
    intro s hc hs hr hw
    obtain ⟨hm, hf, hctx, hl⟩ := hc c (List.mem_cons_self _ _)
    obtain ⟨f, hf'⟩ : ∃ f, c.fuel = f + 1 := ⟨c.fuel - 1, by omega⟩
    obtain ⟨s1, hsend, hs1, hr1, hw1⟩ :=
      Send_data_returns f c.ctx c.loads s c.msg hm hs hr hw hctx hl
    rw [runSends, hf', hsend]
    exact ih s1 (fun x hx => hc x (List.mem_cons_of_mem _ hx)) hs1 hr1 hw1

/-- C1, as the claim states it: after 2^32 successful data `Send` calls on a fresh
tunnel, each wait satisfied, the sync request number 2^29 among the written frames
carries ack number zero, not 2^29. -/
theorem Send_ack_number_wraps :
    (runSends (NewTunnel (idleStream none)) wrapCalls).map
        (fun s' => (s'.stream.sent.filter isSyncRequest)[536870911]?) =
      some (some (Message.control (SyncRequestControl 0)).TunnelMessage) ∧
    (SyncRequestControl 0).AckNumber ≠ 536870912 := by
  constructor
  · have hall : ∀ c ∈ wrapCalls, c.msg.asControl = none ∧ 0 < c.fuel ∧ c.ctx 0 = none ∧
        c.loads 0 % 2 ^ 32 = 4294967294 := by
      intro c hc
      have := List.eq_of_mem_replicate hc
      subst this
      exact ⟨rfl, by decide, rfl, by decide⟩
    obtain ⟨s', hs'⟩ := runSends_returns wrapCalls (NewTunnel (idleStream none)) hall rfl rfl rfl
    have hsent := runSends_sent wrapCalls (NewTunnel (idleStream none)) s' 0
      (fun c hc => (hall c hc).1) rfl rfl hs'
    have hfilter := framesFrom_filter_sync (wrapCalls.map SendCall.msg) 0 (by
      intro m hm
      rcases List.mem_map.mp hm with ⟨c, hc, rfl⟩
      exact (hall c hc).1)
    have hlen : (wrapCalls.map SendCall.msg).length = 4294967296 := by
      rw [wrapCalls, List.map_replicate, List.length_replicate]
    rw [hlen] at hfilter
    have hnum : 0 / 8 + 1 = 1 ∧ (0 + 4294967296) / 8 - 0 / 8 = 536870912 := by
      constructor <;> norm_num
    rw [hnum.1, hnum.2] at hfilter
    have hnil : (NewTunnel (idleStream none)).stream.sent = [] := rfl
    rw [hs', Option.map_some', hsent, hnil, List.nil_append, hfilter, List.getElem?_map,
      List.getElem?_range' 1 1 (by norm_num : 536870911 < 536870912)]
    norm_num [Message.TunnelMessage]
  · decide

/-- C1, amended: after `N` successful data `Send` calls on a fresh tunnel the frames
written are the `N` data frames in order and exactly `N / 8` sync requests; the
`k`-th sync request carries ack number `k` modulo `2^29` (the counter is a `uint32`,
so this is `k` for every `N` below `2^32`) and stands right after the `8k`-th data
frame. -/
theorem Send_writes_sync_requests (stream : BidiStream) (calls : List SendCall) (s' : tunnel)
    (hdata : ∀ c ∈ calls, c.msg.asControl = none)
    (hrun : runSends (NewTunnel stream) calls = some s') :
    ∃ written : List ConnMessage, s'.stream.sent = stream.sent ++ written ∧
      written.filter isSyncRequest =
        (List.range (calls.length / 8)).map
          (fun i => (Message.control (SyncRequestControl ((i + 1) % 2 ^ 29))).TunnelMessage) ∧
      written.filter (fun cm => !isSyncRequest cm) =
        calls.map (fun c => c.msg.TunnelMessage) ∧
      ∀ k, 1 ≤ k → k ≤ calls.length / 8 →
        (∃ c, calls[8 * k - 1]? = some c ∧ written[9 * k - 2]? = some c.msg.TunnelMessage) ∧
        written[9 * k - 1]? =
          some (Message.control (SyncRequestControl (k % 2 ^ 29))).TunnelMessage ∧
        (SyncRequestControl (k % 2 ^ 29)).AckNumber = k % 2 ^ 29 := by
  have hmsgs : ∀ m ∈ calls.map SendCall.msg, m.asControl = none := by
    intro m hm
    rcases List.mem_map.mp hm with ⟨c, hc, rfl⟩
    exact hdata c hc
  have hsent := runSends_sent calls (NewTunnel stream) s' 0 hdata rfl rfl hrun
  refine ⟨framesFrom 0 (calls.map SendCall.msg), hsent, ?_, ?_, ?_⟩
  · rw [framesFrom_filter_sync _ 0 hmsgs, List.length_map, List.range'_eq_map_range,
      List.map_map]
    simp only [Nat.zero_div, Nat.zero_add, Nat.sub_zero]
    apply List.map_congr_left
    intro i _
    simp only [Function.comp_apply]
    rw [Nat.add_comm 1 i]
  · rw [framesFrom_filter_data _ 0 hmsgs, List.map_map]
    rfl
  · intro k hk1 hk2
    have hlt : 8 * k - 1 < (calls.map SendCall.msg).length := by
      rw [List.length_map]; omega
    obtain ⟨h1, h2⟩ := framesFrom_getElem (calls.map SendCall.msg) 0 (8 * k - 1) hlt
    have e1 : 8 * k - 1 + ((0 + (8 * k - 1)) / 8 - 0 / 8) = 9 * k - 2 := by omega
    have e2 : 8 * k - 1 + 1 + ((0 + (8 * k - 1)) / 8 - 0 / 8) = 9 * k - 1 := by omega
    have e3 : (0 + (8 * k - 1) + 1) / 8 = k := by omega
    rw [e1] at h1
    rw [e2, e3] at h2
    refine ⟨?_, h2 (by omega), ?_⟩
    · rw [List.length_map] at hlt
      refine ⟨calls[8 * k - 1], List.getElem?_eq_getElem hlt, ?_⟩
      rw [h1, List.map_map, List.getElem?_map, List.getElem?_eq_getElem hlt]
      rfl
    · simp only [SyncRequestControl, Control.AckNumber]
      omega

theorem Send_writes_sync_requests_witness :
    ((∀ c ∈ nineCalls, c.msg.asControl = none) ∧
      runSends (NewTunnel (idleStream none)) nineCalls = some nineCallsAfter) ∧
    ∃ written : List ConnMessage,
      nineCallsAfter.stream.sent = (idleStream none).sent ++ written ∧
      written.filter isSyncRequest =
        (List.range (nineCalls.length / 8)).map
          (fun i => (Message.control (SyncRequestControl ((i + 1) % 2 ^ 29))).TunnelMessage) ∧
      written.filter (fun cm => !isSyncRequest cm) =
        nineCalls.map (fun c => c.msg.TunnelMessage) ∧
      ∀ k, 1 ≤ k → k ≤ nineCalls.length / 8 →
        (∃ c, nineCalls[8 * k - 1]? = some c ∧
          written[9 * k - 2]? = some c.msg.TunnelMessage) ∧
        written[9 * k - 1]? =
          some (Message.control (SyncRequestControl (k % 2 ^ 29))).TunnelMessage ∧
        (SyncRequestControl (k % 2 ^ 29)).AckNumber = k % 2 ^ 29 :=
  have hdata : ∀ c ∈ nineCalls, c.msg.asControl = none := fun c hc => by
    have := List.eq_of_mem_replicate hc
    subst this
    rfl
  ⟨⟨hdata, rfl⟩,
    Send_writes_sync_requests (idleStream none) nineCalls nineCallsAfter hdata rfl⟩

/-! ## The course of lastAck -/

theorem pendingAcks_error (e : Error) (q : List (Except Error ConnMessage)) :
    pendingAcks (Except.error e :: q) = pendingAcks q := by
  simp [pendingAcks, okFrames]

theorem pendingAcks_data (id : ConnID) (p : List Nat) (q : List (Except Error ConnMessage)) :
    pendingAcks (Except.ok (Message.data id p) :: q) = pendingAcks q := by
  simp [pendingAcks, okFrames, syncResponseAcks, FromConnMessage, Message.asControl]

theorem pendingAcks_control (c : Control) (q : List (Except Error ConnMessage))
    (h : c.Code ≠ ControlCode.SyncResponse) :
    pendingAcks (Except.ok (Message.control c) :: q) = pendingAcks q := by
  simp [pendingAcks, okFrames, syncResponseAcks, FromConnMessage, Message.asControl, h]

theorem pendingAcks_syncResponse (c : Control) (q : List (Except Error ConnMessage))
    (h : c.Code = ControlCode.SyncResponse) :
    pendingAcks (Except.ok (Message.control c) :: q) = c.AckNumber :: pendingAcks q := by
  simp [pendingAcks, okFrames, syncResponseAcks, FromConnMessage, Message.asControl, h]

theorem ReceiveLoop_lastAck (ctx : Context) :
    ∀ (fuel i : Nat) (s s' : tunnel) (r : ReceiveResult),
      tunnel.ReceiveLoop ctx fuel i s = some (s', r) →
      s.lastAck ≤ MaxUint32 →
      List.Chain (fun a b => a ≤ b) s.lastAck (pendingAcks s.stream.recvQueue) →
      s.lastAck ≤ s'.lastAck ∧ s'.lastAck ≤ MaxUint32 ∧
        List.Chain (fun a b => a ≤ b) s'.lastAck (pendingAcks s'.stream.recvQueue) := by
  intro fuel
  induction fuel with
  | zero => intro i s s' r h; simp [tunnel.ReceiveLoop] at h
  | succ n ih =>
    intro i s s' r h hmax hchain
    rw [tunnel.ReceiveLoop] at h
    split at h
    · cases h; exact ⟨le_refl _, hmax, hchain⟩
    · unfold BidiStream.Recv at h
      cases hq : s.stream.recvQueue with
      | nil =>
        simp only [hq] at h
        cases h
        exact ⟨le_refl _, hmax, hchain⟩
      | cons x q =>
        simp only [hq] at h
        rw [hq] at hchain
        cases x with
        | error e =>
          cases h
          rw [pendingAcks_error] at hchain
          exact ⟨le_refl _, hmax, hchain⟩
        | ok cm =>
          simp only [FromConnMessage] at h
          cases cm with
          | data id p =>
            simp only [Message.asControl] at h
            cases h
            rw [pendingAcks_data] at hchain
            exact ⟨le_refl _, hmax, hchain⟩
          | control c =>
            simp only [Message.asControl] at h
            by_cases hreq : c.Code = ControlCode.SyncRequest
            · rw [pendingAcks_control c q (by rw [hreq]; simp)] at hchain
              simp only [hreq] at h
              split at h
              · rename_i st2 e hsend
                have hrq : st2.recvQueue = q := by
                  have := BidiStream.Send_recvQueue { s.stream with recvQueue := q }
                    (Message.control (SyncResponseControl c)).TunnelMessage
                  rw [hsend] at this; exact this
                cases h
                simp only [hrq]
                exact ⟨le_refl _, hmax, hchain⟩
              · rename_i st2 hsend
                have hrq : st2.recvQueue = q := by
                  have := BidiStream.Send_recvQueue { s.stream with recvQueue := q }
                    (Message.control (SyncResponseControl c)).TunnelMessage
                  rw [hsend] at this; exact this
                exact ih _ { s with stream := st2 } s' r h hmax (by simpa only [hrq] using hchain)
            · by_cases hresp : c.Code = ControlCode.SyncResponse
              · rw [pendingAcks_syncResponse c q hresp] at hchain
                simp only [hresp] at h
                rcases List.chain_cons.mp hchain with ⟨hle, hrest⟩
                have hack : c.AckNumber ≤ MaxUint32 := by
                  simp only [Control.AckNumber, MaxUint32]; omega
                obtain ⟨h1, h2, h3⟩ := ih _
                  { s with stream := { s.stream with recvQueue := q }, lastAck := c.AckNumber }
                  s' r h hack hrest
                exact ⟨le_trans hle h1, h2, h3⟩
              · rw [pendingAcks_control c q hresp] at hchain
                have hret : some (({ s with stream := { s.stream with recvQueue := q } } : tunnel),
                    ReceiveResult.ok (Message.control c)) = some (s', r) := by
                  revert h
                  cases hcode : c.Code <;> simp_all
                cases hret
                exact ⟨le_refl _, hmax, hchain⟩

/-- C10, as the claim states it: on a fresh tunnel whose peer sends a sync response
with ack number five, a data frame, a sync response with ack number three and a data
frame, the first `Receive` leaves `lastAck` at five and the second lowers it to
three. -/
theorem Receive_lowers_lastAck :
    ((decreasingAckTunnel.step (TunnelOp.Receive Context.background)).bind
      (fun s1 => (s1.step (TunnelOp.Receive Context.background)).map
        (fun s2 => (s1.lastAck, s2.lastAck)))) = some (5, 3) ∧
    (3 : Nat) < 5 := by
  exact ⟨rfl, by decide⟩

/-- C10, amended: `CloseSend` never lowers `lastAck`, and `Receive` never lowers it
provided the ack numbers of the sync responses waiting in the incoming stream are in
non-decreasing order and not below the current `lastAck`; that order then holds
again for what is left in the stream. `Receive` stores every ack number it absorbs
as it comes. -/
theorem lastAck_not_lowered (s s' : tunnel) (op : TunnelOp)
    (hmax : s.lastAck ≤ MaxUint32)
    (hsorted : ∀ ctx, op = TunnelOp.Receive ctx →
      List.Chain (fun a b => a ≤ b) s.lastAck (pendingAcks s.stream.recvQueue))
    (hstep : s.step op = some s') :
    s.lastAck ≤ s'.lastAck ∧ s'.lastAck ≤ MaxUint32 ∧
    (∀ ctx, op = TunnelOp.Receive ctx →
      List.Chain (fun a b => a ≤ b) s'.lastAck (pendingAcks s'.stream.recvQueue)) ∧
    (op = TunnelOp.CloseSend → s.stream.halfClose ≠ none → s'.lastAck = MaxUint32) := by
  cases op with
  | Receive ctx =>
    simp only [tunnel.step] at hstep
    rcases Option.map_eq_some'.mp hstep with ⟨⟨s1, r⟩, hrecv, rfl⟩
    obtain ⟨h1, h2, h3⟩ := ReceiveLoop_lastAck ctx _ _ _ _ _ hrecv hmax (hsorted ctx rfl)
    exact ⟨h1, h2, fun _ _ => h3, fun h => (by cases h)⟩
  | CloseSend =>
    simp only [tunnel.step, Option.some.injEq] at hstep
    subst hstep
    unfold tunnel.CloseSend
    cases hh : s.stream.halfClose with
    | none => exact ⟨le_refl _, hmax, fun _ h => (by cases h), fun _ h => absurd rfl h⟩
    | some r => exact ⟨hmax, le_refl _, fun _ h => (by cases h), fun _ _ => rfl⟩

theorem lastAck_not_lowered_witness :
    (exampleReceiveTunnel.lastAck ≤ MaxUint32 ∧
      (∀ ctx, TunnelOp.Receive Context.background = TunnelOp.Receive ctx →
        List.Chain (fun a b => a ≤ b) exampleReceiveTunnel.lastAck
          (pendingAcks exampleReceiveTunnel.stream.recvQueue)) ∧
      exampleReceiveTunnel.step (TunnelOp.Receive Context.background) =
        some exampleReceiveTunnelAfter) ∧
    (exampleReceiveTunnel.lastAck ≤ exampleReceiveTunnelAfter.lastAck ∧
      exampleReceiveTunnelAfter.lastAck ≤ MaxUint32 ∧
      (∀ ctx, TunnelOp.Receive Context.background = TunnelOp.Receive ctx →
        List.Chain (fun a b => a ≤ b) exampleReceiveTunnelAfter.lastAck
          (pendingAcks exampleReceiveTunnelAfter.stream.recvQueue)) ∧
      (TunnelOp.Receive Context.background = TunnelOp.CloseSend →
        exampleReceiveTunnel.stream.halfClose ≠ none →
        exampleReceiveTunnelAfter.lastAck = MaxUint32)) :=
  have hsorted : ∀ ctx, TunnelOp.Receive Context.background = TunnelOp.Receive ctx →
      List.Chain (fun a b => a ≤ b) exampleReceiveTunnel.lastAck
        (pendingAcks exampleReceiveTunnel.stream.recvQueue) := fun _ _ =>
    show List.Chain (fun a b => a ≤ b) 0 [7] from List.Chain.cons (by decide) List.Chain.nil
  ⟨⟨by decide, hsorted, rfl⟩,
    lastAck_not_lowered exampleReceiveTunnel exampleReceiveTunnelAfter
      (TunnelOp.Receive Context.background) (by decide) hsorted rfl⟩

/-! ## Control dispatch -/

/-- For a `Connect` control on a connection the pool holds, dispatch makes the one
creating lookup, leaves the pool as it is and hands the control to the handler
held. -/
theorem handleControl_connect_present {H : Type} (NewDialer : ConnID → tunnel → H) (s : tunnel)
    (ctrl : Control) (pool : Pool H) (conn : H) (hc : ctrl.Code = ControlCode.Connect)
    (hg : pool.Get ctrl.ID = some conn) :
    pool.GetOrCreate ctrl.ID (fun _ => Except.ok (NewDialer ctrl.ID s)) =
      (pool, Except.ok (conn, false)) ∧
    s.handleControl NewDialer ctrl pool =
      (pool, [Effect.debugf ctrl.ID ctrl.Code, Effect.poolGetOrCreate ctrl.ID,
        Effect.handleMessage conn (Message.control ctrl)]) := by
  have hgoc : pool.GetOrCreate ctrl.ID (fun _ => Except.ok (NewDialer ctrl.ID s)) =
      (pool, Except.ok (conn, false)) := by
    unfold Pool.GetOrCreate
    rw [hg]
  refine ⟨hgoc, ?_⟩
  unfold tunnel.handleControl
  simp only [hc, ne_eq, not_true_eq_false, if_false]
  rw [hgoc]
  rfl

/-- For a `Connect` control on a connection the pool does not hold, dispatch makes the
one creating lookup, which inserts the handler built by the factory, and hands the
control to that handler. -/
theorem handleControl_connect_absent {H : Type} (NewDialer : ConnID → tunnel → H) (s : tunnel)
    (ctrl : Control) (pool : Pool H) (hc : ctrl.Code = ControlCode.Connect)
    (hg : pool.Get ctrl.ID = none) :
    pool.GetOrCreate ctrl.ID (fun _ => Except.ok (NewDialer ctrl.ID s)) =
      ({ entries := pool.entries ++ [(ctrl.ID, NewDialer ctrl.ID s)] },
        Except.ok (NewDialer ctrl.ID s, true)) ∧
    s.handleControl NewDialer ctrl pool =
      ({ entries := pool.entries ++ [(ctrl.ID, NewDialer ctrl.ID s)] },
        [Effect.debugf ctrl.ID ctrl.Code, Effect.poolGetOrCreate ctrl.ID,
          Effect.handleMessage (NewDialer ctrl.ID s) (Message.control ctrl)]) := by
  have hgoc : pool.GetOrCreate ctrl.ID (fun _ => Except.ok (NewDialer ctrl.ID s)) =
      ({ entries := pool.entries ++ [(ctrl.ID, NewDialer ctrl.ID s)] },
        Except.ok (NewDialer ctrl.ID s, true)) := by
    unfold Pool.GetOrCreate
    rw [hg]
  refine ⟨hgoc, ?_⟩
  unfold tunnel.handleControl
  simp only [hc, ne_eq, not_true_eq_false, if_false]
  rw [hgoc]
  rfl

/-- C8: control dispatch calls `GetOrCreate` exactly when the code is `Connect`. For
`Connect` its one call on the pool is `GetOrCreate` on the id of the control, the
pool afterwards is the one that call returns, and the control is handed to the
handler that call returns and to it only. For every other code it leaves the pool
as it is, makes the one non-creating `Get` and no other call on the pool, hands the
control to the handler found and to it only; when none is found it hands the
control to no handler and logs an error exactly when the code is neither
`Disconnect` nor `DisconnectOK`. -/
theorem handleControl_dispatch {H : Type} (NewDialer : ConnID → tunnel → H) (s : tunnel)
    (ctrl : Control) (pool : Pool H) :
    ((∃ id, Effect.poolGetOrCreate id ∈ (s.handleControl NewDialer ctrl pool).2) ↔
      ctrl.Code = ControlCode.Connect) ∧
    (ctrl.Code ≠ ControlCode.Connect →
      (s.handleControl NewDialer ctrl pool).1 = pool ∧
      Effect.poolGet ctrl.ID ∈ (s.handleControl NewDialer ctrl pool).2 ∧
      (∀ id, Effect.poolGet id ∈ (s.handleControl NewDialer ctrl pool).2 → id = ctrl.ID) ∧
      (∀ conn, pool.Get ctrl.ID = some conn →
        (∀ h m, Effect.handleMessage h m ∈ (s.handleControl NewDialer ctrl pool).2 ↔
          h = conn ∧ m = Message.control ctrl) ∧
        ∀ t, Effect.logError t ∉ (s.handleControl NewDialer ctrl pool).2) ∧
      (pool.Get ctrl.ID = none →
        (∀ h m, Effect.handleMessage h m ∉ (s.handleControl NewDialer ctrl pool).2) ∧
        ((∃ t, Effect.logError t ∈ (s.handleControl NewDialer ctrl pool).2) ↔
          ctrl.Code ≠ ControlCode.Disconnect ∧ ctrl.Code ≠ ControlCode.DisconnectOK))) ∧
    (ctrl.Code ≠ ControlCode.Connect →
      poolCalls (s.handleControl NewDialer ctrl pool).2 = [(false, ctrl.ID)]) ∧
    (ctrl.Code = ControlCode.Connect →
      poolCalls (s.handleControl NewDialer ctrl pool).2 = [(true, ctrl.ID)] ∧
      (s.handleControl NewDialer ctrl pool).1 =
        (pool.GetOrCreate ctrl.ID (fun _ => Except.ok (NewDialer ctrl.ID s))).1 ∧
      (∀ conn created,
        (pool.GetOrCreate ctrl.ID (fun _ => Except.ok (NewDialer ctrl.ID s))).2 =
          Except.ok (conn, created) →
        (∀ h m, Effect.handleMessage h m ∈ (s.handleControl NewDialer ctrl pool).2 ↔
          h = conn ∧ m = Message.control ctrl) ∧
        ∀ t, Effect.logError t ∉ (s.handleControl NewDialer ctrl pool).2) ∧
      (∀ e,
        (pool.GetOrCreate ctrl.ID (fun _ => Except.ok (NewDialer ctrl.ID s))).2 =
          Except.error e →
        (∀ h m, Effect.handleMessage h m ∉ (s.handleControl NewDialer ctrl pool).2) ∧
        ∀ t, Effect.logError t ∈ (s.handleControl NewDialer ctrl pool).2 ↔ t = e) ∧
      (∀ conn, pool.Get ctrl.ID = some conn →
        (s.handleControl NewDialer ctrl pool).1 = pool ∧
        Effect.handleMessage conn (Message.control ctrl) ∈
          (s.handleControl NewDialer ctrl pool).2) ∧
      (pool.Get ctrl.ID = none →
        (s.handleControl NewDialer ctrl pool).1 =
          { entries := pool.entries ++ [(ctrl.ID, NewDialer ctrl.ID s)] } ∧
        Effect.handleMessage (NewDialer ctrl.ID s) (Message.control ctrl) ∈
          (s.handleControl NewDialer ctrl pool).2)) := by
  by_cases hc : ctrl.Code = ControlCode.Connect
  · refine ⟨?_, fun h => absurd hc h, fun h => absurd hc h, fun _ => ?_⟩
    · cases hg : pool.Get ctrl.ID with
      | none =>
        rw [(handleControl_connect_absent NewDialer s ctrl pool hc hg).2]
        simp [hc]
      | some conn =>
        rw [(handleControl_connect_present NewDialer s ctrl pool conn hc hg).2]
        simp [hc]
    · cases hg : pool.Get ctrl.ID with
      | none =>
        obtain ⟨hgoc, hrun⟩ := handleControl_connect_absent NewDialer s ctrl pool hc hg
        rw [hrun, hgoc]
        simp [poolCalls]
      | some conn =>
        obtain ⟨hgoc, hrun⟩ := handleControl_connect_present NewDialer s ctrl pool conn hc hg
        rw [hrun, hgoc]
        simp [poolCalls]
  · refine ⟨?_, fun _ => ?_, fun _ => ?_, fun h => absurd h hc⟩
    · unfold tunnel.handleControl
      simp only [hc, ne_eq, not_false_eq_true, if_true, iff_false]
      cases hg : pool.Get ctrl.ID with
      | none =>
        by_cases hd : ctrl.Code ≠ ControlCode.Disconnect ∧ ctrl.Code ≠ ControlCode.DisconnectOK
        · simp [hd]
        · rw [if_neg hd]
          simp
      | some conn => simp
    · unfold tunnel.handleControl
      simp only [hc, ne_eq, not_false_eq_true, if_true]
      cases hg : pool.Get ctrl.ID with
      | none =>
        by_cases hd : ctrl.Code ≠ ControlCode.Disconnect ∧ ctrl.Code ≠ ControlCode.DisconnectOK
        · simp [hd]
        · rw [if_neg hd]
          simp [hd]
      | some conn => simp
    · unfold tunnel.handleControl
      simp only [hc, ne_eq, not_false_eq_true, if_true]
      cases hg : pool.Get ctrl.ID with
      | none =>
        by_cases hd : ctrl.Code ≠ ControlCode.Disconnect ∧ ctrl.Code ≠ ControlCode.DisconnectOK
        · simp [hd, poolCalls]
        · rw [if_neg hd]
          simp [poolCalls]
      | some conn => simp [poolCalls]

end connpool

namespace udp

open connpool

theorem copy_full (src : List Nat) (n : Nat) :
    copy (List.replicate (n + src.length - n) 0) src = src := by
  simp [copy]

theorem HandleMessage_toTun (lib : PacketLib) (h : handler) (mdg : Message) :
    (h.HandleMessage lib SelectCase.toTun mdg).toTun =
      h.toTun ++ [replyPacket lib h.id mdg.Payload] := by
  have hc := copy_full mdg.Payload lib.HeaderLen
  simp only [handler.HandleMessage, NewDatagram, IPHeader.SetChecksum, Header.SetSourcePort,
    Header.SetDestinationPort, Header.SetPayloadLen, Header.SetChecksum, replyPacket, hc]

theorem toTun_payloadLen (lib : PacketLib) (id : ConnID) (mdg : Message) :
    (({ id := id, toTun := [] } : handler).HandleMessage lib SelectCase.toTun mdg).toTun.map
      (fun pkt => pkt.udpHdr.payloadLen) = [mdg.Payload.length % 65536] := by
  rw [HandleMessage_toTun]
  rfl

theorem Payload_length_replicate (id : ConnID) (n : Nat) :
    (NewMessage id (List.replicate n 0)).Payload.length = n := by
  simp only [NewMessage, Message.Payload, List.length_replicate]

/-- C9, as the claim states it: for a reply payload of 65536 bytes the payload-length
field of the delivered packet is zero, not the length of the payload. -/
theorem HandleMessage_payloadLen_truncated :
    ((({ id := dnsConn, toTun := [] } : handler).HandleMessage sumLib SelectCase.toTun
        (NewMessage dnsConn (List.replicate 65536 0))).toTun.map
          (fun pkt => pkt.udpHdr.payloadLen)) = [0] ∧
    (NewMessage dnsConn (List.replicate 65536 0)).Payload.length = 65536 := by
  constructor
  · rw [toTun_payloadLen, Payload_length_replicate]
  · exact Payload_length_replicate dnsConn 65536

/-- C9, amended: the packet `HandleMessage` delivers to the TUN channel has size
`HeaderLen + len(Q)`, IP source `D` and destination `S`, UDP source port `dp` and
destination port `sp`, a payload-length field equal to `len(Q)` reduced to 16 bits
(so equal to `len(Q)` below 65536), the payload `Q`, and IP and UDP checksums
computed over the finished headers; when the context is done instead, nothing is
delivered. -/
theorem HandleMessage_reply_packet (lib : PacketLib) (h : handler) (mdg : Message) :
    (∃ pkt : Datagram,
      (h.HandleMessage lib SelectCase.toTun mdg).toTun = h.toTun ++ [pkt] ∧
      pkt.size = lib.HeaderLen + mdg.Payload.length ∧
      pkt.ipHdr.source = h.id.Destination ∧ pkt.ipHdr.destination = h.id.Source ∧
      pkt.udpHdr.sourcePort = h.id.DestinationPort ∧
      pkt.udpHdr.destinationPort = h.id.SourcePort ∧
      pkt.udpHdr.payloadLen = mdg.Payload.length % 65536 ∧
      (mdg.Payload.length < 65536 → pkt.udpHdr.payloadLen = mdg.Payload.length) ∧
      pkt.udpHdr.payload = mdg.Payload ∧
      pkt.ipHdr.checksum = lib.ipChecksum { pkt.ipHdr with checksum := 0 } ∧
      pkt.udpHdr.checksum = lib.l4Checksum pkt.ipHdr { pkt.udpHdr with checksum := 0 }) ∧
    (h.HandleMessage lib SelectCase.ctxDone mdg).toTun = h.toTun := by
  refine ⟨⟨replyPacket lib h.id mdg.Payload, HandleMessage_toTun lib h mdg, rfl, rfl, rfl, rfl,
    rfl, rfl, ?_, rfl, rfl, rfl⟩, rfl⟩
  intro hlt
  exact Nat.mod_eq_of_lt hlt

end udp
